import Mathlib

/-!
# Verification of the Life-Event Pattern Mining and Memory Query Engine

Shallow embedding, in Lean 4, of the core of the `profile-service`
repository (`app/life_stream/`): the ingestion endpoint
(`api/ingest.py`), the memory query engine (`api/memory.py`), the
pattern miner worker (`workers/pattern_miner.py`) and the pattern
persistence layer (`clickhouse.py`).  Python floats are modelled as
exact rationals (`ℚ`), datetimes as explicit day/time records, and the
external stores (ClickHouse, Neo4j) as explicit data passed to the
functions that consume it.  Each definition mirrors one Python function
and keeps its name.
-/

set_option maxRecDepth 10000

namespace LifeStream

/-! ## Datetime model

`datetime.utcnow()` values are modelled as a day number plus
hour/minute/second/microsecond fields.  `day` counts days from an epoch
chosen so that day 0 is a Monday, matching CPython's
`datetime.weekday()` where Monday = 0 … Sunday = 6.
`timedelta(days=k)` arithmetic only touches the `day` field. -/

structure DT where
  day : ℤ
  hour : ℕ
  minute : ℕ
  second : ℕ
  micro : ℕ
deriving DecidableEq, Repr

/-- `d.weekday()` of CPython: Monday = 0 … Sunday = 6. -/
def DT.weekday (d : DT) : ℤ := d.day % 7

/-- `d - timedelta(days=k)`. -/
def DT.subDays (d : DT) (k : ℤ) : DT := { d with day := d.day - k }

/-- `d.replace(hour=0, minute=0, second=0, microsecond=0)`. -/
def DT.atMidnight (d : DT) : DT := { d with hour := 0, minute := 0, second := 0, micro := 0 }

/-- `d.replace(hour=23, minute=59, second=59)` — note the source does
not reset the microsecond field here. -/
def DT.atEndOfDay (d : DT) : DT := { d with hour := 23, minute := 59, second := 59 }

/-! ## String helpers

Python's `pat in s` substring test, and `s.lower()`.  Lowercasing is
modelled characterwise with `Char.toLower`; the Russian phrase table of
the source is already lower-case, as are the phrases in the claims, so
nothing below depends on case-folding beyond ASCII. -/

/-- Does the character list `hay` start with `pat`? -/
def charsStartWith : List Char → List Char → Bool
  | _, [] => true
  | [], _ :: _ => false
  | a :: as, b :: bs => a = b && charsStartWith as bs

/-- Does `pat` occur as a contiguous run inside `hay`? -/
def charsContain : List Char → List Char → Bool
  | [], pat => pat.isEmpty
  | c :: rest, pat => charsStartWith (c :: rest) pat || charsContain rest pat

/-- Python `pat in hay` (substring containment). -/
def containsSub (hay pat : String) : Bool := charsContain hay.data pat.data

/-- Python `s.lower()` (characterwise model). -/
def lowerStr (s : String) : String := ⟨s.data.map Char.toLower⟩

/-! ## `MemoryRAG._parse_time_from_question` (`api/memory.py`, lines 137–186) -/

/-- Embedding of `MemoryRAG._parse_time_from_question`.  Given the
question text, the optional explicit `start_date`/`end_date`, and `now`
(= `datetime.utcnow()`), returns the resolved `(start, end)` range. -/
def parse_time_from_question (question : String) (start_date end_date : Option DT)
    (now : DT) : DT × DT :=
  match start_date, end_date with
  | some s, some e => (s, e)
  | _, _ =>
    let q := lowerStr question
    if containsSub q "сегодня" then
      (now.atMidnight, now)
    else if containsSub q "вчера" then
      let yesterday := now.subDays 1
      (yesterday.atMidnight, yesterday.atEndOfDay)
    else if containsSub q "прошлую пятницу" || containsSub q "в пятницу" then
      let daysSinceFriday := (now.weekday - 4) % 7
      let daysSinceFriday := if daysSinceFriday = 0 then 7 else daysSinceFriday
      let friday := now.subDays daysSinceFriday
      (friday.atMidnight, friday.atEndOfDay)
    else if containsSub q "выходные" || containsSub q "weekend" then
      let daysSinceSunday := (now.weekday + 1) % 7
      let sunday := now.subDays daysSinceSunday
      let saturday := sunday.subDays 1
      (saturday.atMidnight, sunday.atEndOfDay)
    else if containsSub q "неделю" || containsSub q "week" then
      (now.subDays 7, now)
    else if containsSub q "месяц" || containsSub q "month" then
      (now.subDays 30, now)
    else
      (now.subDays 7, now)

/-- Spec-side notion for C3: the day number of the most recent Saturday
on or before `now` (Saturday has weekday 5). -/
def mostRecentSaturdayDay (now : DT) : ℤ := now.day - (now.day - 5) % 7

/-- The weekend branch of the rule table is taken: the (lowered)
question contains a weekend phrase and none of the higher-precedence
phrases. -/
def weekendBranchTaken (question : String) : Prop :=
  let q := lowerStr question
  containsSub q "сегодня" = false ∧
  containsSub q "вчера" = false ∧
  containsSub q "прошлую пятницу" = false ∧
  containsSub q "в пятницу" = false ∧
  (containsSub q "выходные" = true ∨ containsSub q "weekend" = true)

instance (q : String) : Decidable (weekendBranchTaken q) := by
  unfold weekendBranchTaken; infer_instance

/-- Spec-side characterization for C3: the resolved range `r` runs from
the most recent Saturday at 00:00:00 (microsecond 0) through the
following Sunday at 23:59:59. -/
def resolvesToMostRecentWeekend (now : DT) (r : DT × DT) : Prop :=
  r.1.day = mostRecentSaturdayDay now ∧ r.1.day % 7 = 5 ∧
  now.day - 7 < r.1.day ∧ r.1.day ≤ now.day ∧
  r.1.hour = 0 ∧ r.1.minute = 0 ∧ r.1.second = 0 ∧ r.1.micro = 0 ∧
  r.2.day = r.1.day + 1 ∧ r.2.hour = 23 ∧ r.2.minute = 59 ∧ r.2.second = 59

instance (now : DT) (r : DT × DT) : Decidable (resolvesToMostRecentWeekend now r) := by
  unfold resolvesToMostRecentWeekend; infer_instance

/-! ## Event rows as seen by the memory engine

`ClickHouseDB.get_events` / `search_events_for_rag` return dictionaries;
the fields the memory engine reads are modelled below.  Floats are
rationals; a JSON `null` or absent key is `none`. -/

/-- The payload dictionary fields read by `api/memory.py`. -/
structure Payload where
  item : Option String := none
  amount : Option ℚ := none
  place : Option String := none
  category : Option String := none
  action : Option String := none
  person_id : Option String := none
  person_name : Option String := none
deriving DecidableEq, Repr

/-- One event dictionary returned by the ClickHouse query layer. -/
structure CHEvent where
  id : String
  event_type : String
  event_subtype : String := ""
  timestamp : String := ""
  latitude : Option ℚ := none
  longitude : Option ℚ := none
  payload : Payload := {}
deriving DecidableEq, Repr

/-- A person record from the Neo4j lookup. -/
structure Person where
  id : Option String := none
  name : Option String := none
  email : Option String := none
deriving DecidableEq, Repr

/-- A stored pattern as consumed by `_build_context` (only `name` and
`description` are read there). -/
structure KnownPattern where
  name : String
  description : String
deriving DecidableEq, Repr

/-- Python truthiness of an optional float: `None` and `0.0` are falsy. -/
def pyTruthy : Option ℚ → Bool
  | none => false
  | some q => q ≠ 0

/-- `round(x, 4)` scaled to an integer: the 4-decimal key used for
location dedup.  (Python rounds float ties to even; ties never matter
below, `round` here is the usual nearest-integer rounding.) -/
def round4 (q : ℚ) : ℤ := round (q * 10000)

/-- An entry of the `locations` list of a memory answer. -/
structure Loc where
  lat : ℚ
  lon : ℚ
  timestamp : String
deriving DecidableEq, Repr

/-- The 4-decimal dedup key `f"{round(lat, 4)},{round(lon, 4)}"`,
modelled as the pair of scaled roundings. -/
def locKey (lat lon : ℚ) : ℤ × ℤ := (round4 lat, round4 lon)

/-- Loop of `MemoryRAG._extract_locations` (`api/memory.py`, lines
427–445): walk the events, keep the first event for each 4-decimal
coordinate key, skipping events whose `latitude` or `longitude` is
falsy (`None` or `0.0`). -/
def extract_locations_loop : List CHEvent → List (ℤ × ℤ) → List Loc
  | [], _ => []
  | e :: rest, seen =>
    match e.latitude, e.longitude with
    | some la, some lo =>
      if la ≠ 0 ∧ lo ≠ 0 then
        if locKey la lo ∈ seen then extract_locations_loop rest seen
        else ⟨la, lo, e.timestamp⟩ :: extract_locations_loop rest (locKey la lo :: seen)
      else extract_locations_loop rest seen
    | _, _ => extract_locations_loop rest seen

/-- `MemoryRAG._extract_locations`: dedup then `[:20]`. -/
def extract_locations (events : List CHEvent) : List Loc :=
  (extract_locations_loop events []).take 20

/-- The fixed hedging phrase list of `_calculate_confidence`. -/
def hedging_words : List String :=
  ["возможно", "вероятно", "не уверен", "недостаточно", "нет данных"]

/-- `MemoryRAG._calculate_confidence` (`api/memory.py`, lines 413–425). -/
def calculate_confidence (events : List CHEvent) (answer : String) : ℚ :=
  if events.isEmpty then 1/10
  else
    let event_score : ℚ := min (1/2) ((events.length : ℚ) / 100)
    let hedging_penalty : ℚ :=
      1/10 * ((hedging_words.filter (fun w => containsSub (lowerStr answer) w)).length : ℚ)
    max (1/10) (min (19/20) (1/2 + event_score - hedging_penalty))

/-! ## `_build_context` and the no-AI fallback answer -/

/-- First occurrences of each value, in order (the key order of a
Python dict built by repeated insertion). -/
def firstOccurrences [DecidableEq κ] : List κ → List κ
  | [] => []
  | k :: rest => k :: (firstOccurrences rest).filter (fun k' => k' ≠ k)

/-- Insertion-ordered grouping, as built by the `by_type` /
`hour_activity` dict loops of the source: keys in first-occurrence
order, each paired with all its items in list order. -/
def groupByKey [DecidableEq κ] (key : α → κ) (l : List α) : List (κ × List α) :=
  (firstOccurrences (l.map key)).map fun k => (k, l.filter fun a => key a = k)

/-- Render of an optional float for an f-string (`None` or the number;
the exact numeral text is irrelevant to every claim). -/
def fmtOptQ : Option ℚ → String
  | none => "None"
  | some q => toString q

/-- Approximate render of `json.dumps(payload)[:100]` — only its first
two characters could ever matter to the claims (a JSON object render
never starts with `"- "`). -/
def payloadDump (p : Payload) : String :=
  (String.append "\x7b" (String.append (p.item.getD "") "\x7d")).take 100

/-- Python `a or b` for strings with `""` falsy. -/
def strOr (a b : String) : String := if a = "" then b else a

/-- One `"- ..."` event line of `_build_context` (lines 309–328). -/
def formatEventLine (e : CHEvent) : String :=
  let ts := e.timestamp
  if e.event_type = "geo" then
    "- " ++ ts ++ ": Координаты (" ++ fmtOptQ e.latitude ++ ", " ++ fmtOptQ e.longitude ++ ")"
  else if e.event_type = "purchase" then
    "- " ++ ts ++ ": " ++ e.payload.item.getD "" ++ " - " ++
      fmtOptQ (some (e.payload.amount.getD 0)) ++ " руб. (" ++ e.payload.place.getD "" ++ ")"
  else if e.event_type = "social" then
    let action := strOr e.event_subtype (e.payload.action.getD "")
    let person := strOr (e.payload.person_name.getD "") (e.payload.person_id.getD "")
    "- " ++ ts ++ ": " ++ action ++ " с " ++ person
  else
    "- " ++ ts ++ ": " ++ payloadDump e.payload

/-- `MemoryRAG._build_context` (`api/memory.py`, lines 286–342). -/
def build_context (events : List CHEvent) (people : List Person)
    (patterns : List KnownPattern) : String :=
  let eventParts : List String :=
    if events.isEmpty then []
    else
      ("## События (" ++ toString events.length ++ " записей)") ::
        (groupByKey (fun e => e.event_type) events).flatMap fun (t, typeEvents) =>
          ("\n### " ++ String.mk (t.data.map Char.toUpper) ++ " (" ++
              toString typeEvents.length ++ ")") ::
            (typeEvents.take 10).map formatEventLine
  let peopleParts : List String :=
    if people.isEmpty then []
    else
      ("\n## Люди (" ++ toString people.length ++ ")") ::
        people.map fun p => "- " ++ p.name.getD "Unknown" ++ " (" ++ p.email.getD "" ++ ")"
  let patternParts : List String :=
    if patterns.isEmpty then []
    else
      ("\n## Известные паттерны (" ++ toString patterns.length ++ ")") ::
        (patterns.take 5).map fun p => "- " ++ p.name ++ ": " ++ p.description
  String.intercalate "\n" (eventParts ++ peopleParts ++ patternParts)

/-- `context.split("\n")` on character lists. -/
def splitOnNewline : List Char → List (List Char)
  | [] => [[]]
  | c :: rest =>
    match splitOnNewline rest with
    | [] => [[]]
    | l :: ls => if c = '\n' then [] :: l :: ls else (c :: l) :: ls

/-- The fixed fallback text for an empty context. -/
def noDataAnswer : String :=
  "К сожалению, за указанный период не найдено подходящих событий."

/-- `MemoryRAG._generate_simple_answer` (`api/memory.py`, lines
403–411): counts the `"- "` lines of the context. -/
def generate_simple_answer (context : String) : String :=
  let lines := splitOnNewline context.data
  let event_count := (lines.filter fun l => charsStartWith l "- ".data).length
  if event_count = 0 then noDataAnswer
  else
    "Найдено " ++ toString event_count ++
      " событий за указанный период. Для подробного анализа настройте AI API (Gemini или OpenAI)."

/-! ## Spec-side notions for the memory-engine claims -/

/-- Spec-side confidence formula of §4.5 step 7: base `0.5 +
min(0.5, events_analyzed/100)`, minus `0.1` per hedging phrase, clamped
to `[0.1, 0.95]`. -/
def confidenceFormula (n hedges : ℕ) : ℚ :=
  max (1/10) (min (19/20) (1/2 + min (1/2) ((n : ℚ)/100) - (hedges : ℚ)/10))

/-- Number of hedging phrases from the fixed list detected in the
answer text. -/
def hedgeCount (answer : String) : ℕ :=
  (hedging_words.filter fun w => containsSub (lowerStr answer) w).length

/-- Spec-side for C10: the event's coordinates are present and nonzero. -/
def coordsUsable (e : CHEvent) : Prop :=
  (∃ x, e.latitude = some x ∧ x ≠ 0) ∧ (∃ y, e.longitude = some y ∧ y ≠ 0)

theorem pyTruthy_iff (o : Option ℚ) : pyTruthy o = true ↔ ∃ x, o = some x ∧ x ≠ 0 := by
  cases o <;> simp [pyTruthy]

instance (e : CHEvent) : Decidable (coordsUsable e) :=
  decidable_of_iff (pyTruthy e.latitude = true ∧ pyTruthy e.longitude = true)
    (and_congr (pyTruthy_iff _) (pyTruthy_iff _))

/-- Events failing the truthiness test (absent or exactly-zero
coordinate) can be dropped without changing `_extract_locations`. -/
theorem extract_locations_loop_filter (events : List CHEvent) (seen : List (ℤ × ℤ)) :
    extract_locations_loop (events.filter fun e => decide (coordsUsable e)) seen =
      extract_locations_loop events seen := by
  induction events generalizing seen with
  | nil => rfl
  | cons e rest ih =>
    by_cases h : coordsUsable e
    · rw [List.filter_cons_of_pos (by simpa using h)]
      obtain ⟨⟨x, hx, hx0⟩, ⟨y, hy, hy0⟩⟩ := h
      by_cases hk : locKey x y ∈ seen <;>
        simp [extract_locations_loop, hx, hy, hx0, hy0, hk, ih]
    · rw [List.filter_cons_of_neg (by simpa using h)]
      cases hla : e.latitude with
      | none => simp [extract_locations_loop, hla, ih]
      | some x =>
        cases hlo : e.longitude with
        | none => simp [extract_locations_loop, hla, hlo, ih]
        | some y =>
          have h0 : ¬(x ≠ 0 ∧ y ≠ 0) := by
            intro h0
            exact h ⟨⟨x, hla, h0.1⟩, ⟨y, hlo, h0.2⟩⟩
          simp [extract_locations_loop, hla, hlo, h0, ih]

/-- Loop invariant: emitted keys avoid `seen` and are pairwise
distinct. -/
theorem extract_locations_loop_inv (events : List CHEvent) (seen : List (ℤ × ℤ)) :
    (∀ l ∈ extract_locations_loop events seen, locKey l.lat l.lon ∉ seen) ∧
    (extract_locations_loop events seen).Pairwise
      (fun l1 l2 => locKey l1.lat l1.lon ≠ locKey l2.lat l2.lon) := by
  induction events generalizing seen with
  | nil => simp [extract_locations_loop]
  | cons e rest ih =>
    cases hla : e.latitude with
    | none => simpa [extract_locations_loop, hla] using ih seen
    | some x =>
      cases hlo : e.longitude with
      | none => simpa [extract_locations_loop, hla, hlo] using ih seen
      | some y =>
        by_cases h0 : x ≠ 0 ∧ y ≠ 0
        · by_cases hk : locKey x y ∈ seen
          · simpa [extract_locations_loop, hla, hlo, h0, hk] using ih seen
          · have ih' := ih (locKey x y :: seen)
            constructor
            · intro l hl
              simp only [extract_locations_loop, hla, hlo] at hl
              rw [if_pos h0, if_neg hk] at hl
              rcases List.mem_cons.mp hl with rfl | hl
              · exact hk
              · exact fun hmem => ih'.1 l hl (List.mem_cons_of_mem _ hmem)
            · simp only [extract_locations_loop, hla, hlo]
              rw [if_pos h0, if_neg hk]
              refine List.Pairwise.cons ?_ ih'.2
              intro l hl hkey
              exact ih'.1 l hl (by simp [← hkey])
        · simpa [extract_locations_loop, hla, hlo, h0] using ih seen

/-- Every emitted location comes from an input event with those exact
(nonzero) coordinates and timestamp. -/
theorem extract_locations_loop_mem (events : List CHEvent) (seen : List (ℤ × ℤ)) :
    ∀ l ∈ extract_locations_loop events seen, ∃ e ∈ events,
      e.latitude = some l.lat ∧ e.longitude = some l.lon ∧ e.timestamp = l.timestamp ∧
      l.lat ≠ 0 ∧ l.lon ≠ 0 := by
  induction events generalizing seen with
  | nil => simp [extract_locations_loop]
  | cons e rest ih =>
    intro l hl
    cases hla : e.latitude with
    | none =>
      simp only [extract_locations_loop, hla] at hl
      obtain ⟨e', he', h⟩ := ih seen l hl
      exact ⟨e', List.mem_cons_of_mem _ he', h⟩
    | some x =>
      cases hlo : e.longitude with
      | none =>
        simp only [extract_locations_loop, hla, hlo] at hl
        obtain ⟨e', he', h⟩ := ih seen l hl
        exact ⟨e', List.mem_cons_of_mem _ he', h⟩
      | some y =>
        by_cases h0 : x ≠ 0 ∧ y ≠ 0
        · by_cases hk : locKey x y ∈ seen
          · simp only [extract_locations_loop, hla, hlo] at hl
            rw [if_pos h0, if_pos hk] at hl
            obtain ⟨e', he', h⟩ := ih seen l hl
            exact ⟨e', List.mem_cons_of_mem _ he', h⟩
          · simp only [extract_locations_loop, hla, hlo] at hl
            rw [if_pos h0, if_neg hk] at hl
            rcases List.mem_cons.mp hl with rfl | hl
            · exact ⟨e, List.mem_cons_self _ _, hla, hlo, rfl, h0.1, h0.2⟩
            · obtain ⟨e', he', h⟩ := ih _ l hl
              exact ⟨e', List.mem_cons_of_mem _ he', h⟩
        · simp only [extract_locations_loop, hla, hlo] at hl
          rw [if_neg h0] at hl
          obtain ⟨e', he', h⟩ := ih seen l hl
          exact ⟨e', List.mem_cons_of_mem _ he', h⟩

/-! ## The geo pattern miner (`workers/pattern_miner.py`)

`analyze_geo_patterns` clusters `(lat, lon)` pairs with
`sklearn.cluster.DBSCAN(eps=0.001, min_samples=min_cluster_size)`.
The embedding below mirrors scikit-learn's `dbscan_inner`: points with
at least `min_samples` neighbours within `eps` (themselves included)
are core; the scan walks the points in index order, starts a cluster at
each yet-unlabelled core point and expands it with a stack, labelling
every yet-unlabelled neighbour, expanding only through core points.
Labels are `Option ℕ` (`none` = still unlabelled / noise, where
scikit-learn uses `-1`). -/

/-- One geo point of `ClickHouseDB.get_geo_points`: coordinates plus
the event timestamp (seconds since the epoch, UTC; `t.hour` is
`ts / 3600 % 24`). -/
structure GeoPoint where
  lat : ℚ
  lon : ℚ
  ts : ℕ
deriving DecidableEq, Repr

/-- Squared Euclidean distance in degree space. -/
def sqDist (p q : ℚ × ℚ) : ℚ := (p.1 - q.1)^2 + (p.2 - q.2)^2

/-- The fixed DBSCAN radius of the source: `eps=0.001` degrees. -/
def dbscanEps : ℚ := 1/1000

/-- `coords[i]` with a junk default (all uses are in range). -/
def nthCoord (coords : List (ℚ × ℚ)) (i : ℕ) : ℚ × ℚ := coords.getD i (0, 0)

/-- Indices of the `eps`-neighbourhood of point `i` (the point itself
included), as computed by `NearestNeighbors.radius_neighbors`:
distance `≤ eps`, i.e. squared distance `≤ eps²`. -/
def neighborsIdx (coords : List (ℚ × ℚ)) (eps : ℚ) (i : ℕ) : List ℕ :=
  (List.range coords.length).filter fun j =>
    sqDist (nthCoord coords i) (nthCoord coords j) ≤ eps^2

/-- Core-point test: at least `min_samples` neighbours within `eps`. -/
def isCore (coords : List (ℚ × ℚ)) (eps : ℚ) (minSamples : ℕ) (i : ℕ) : Bool :=
  minSamples ≤ (neighborsIdx coords eps i).length

/-- Number of still-unlabelled entries (used as termination measure). -/
def unlabeledCount (labels : List (Option ℕ)) : ℕ :=
  labels.countP fun o => o.isNone

theorem unlabeledCount_set (labels : List (Option ℕ)) (i ℓ : ℕ)
    (h : labels.get? i = some none) :
    unlabeledCount (labels.set i (some ℓ)) + 1 = unlabeledCount labels := by
  induction labels generalizing i with
  | nil => simp at h
  | cons a rest ih =>
    cases i with
    | zero =>
      simp only [List.get?] at h
      cases h
      simp [unlabeledCount, List.set, List.countP_cons]
    | succ n =>
      simp only [List.get?] at h
      have := ih n h
      simp only [List.set, unlabeledCount, List.countP_cons] at *
      omega

theorem unlabeledCount_pos (labels : List (Option ℕ)) (i : ℕ)
    (h : labels.get? i = some none) : 1 ≤ unlabeledCount labels := by
  induction labels generalizing i with
  | nil => simp at h
  | cons a rest ih =>
    cases i with
    | zero =>
      simp only [List.get?] at h
      cases h
      simp [unlabeledCount, List.countP_cons]
    | succ n =>
      simp only [List.get?] at h
      have := ih n h
      simp only [unlabeledCount, List.countP_cons] at *
      omega

theorem neighborsIdx_length_le (coords : List (ℚ × ℚ)) (eps : ℚ) (i : ℕ) :
    (neighborsIdx coords eps i).length ≤ coords.length := by
  unfold neighborsIdx
  exact le_trans (List.length_filter_le _ _) (by simp)

/-- scikit-learn's `dbscan` first materialises all neighbourhoods
(`nn.radius_neighbors(X)`); `dbscan_inner` then works purely on these
index lists. -/
def precomputedNeighborhoods (coords : List (ℚ × ℚ)) (eps : ℚ) : List (List ℕ) :=
  (List.range coords.length).map (neighborsIdx coords eps)

/-- `is_core` array: `n_neighbors >= min_samples` per point. -/
def coreFlags (neighborhoods : List (List ℕ)) (minSamples : ℕ) : List Bool :=
  neighborhoods.map fun nb => decide (minSamples ≤ nb.length)

/-- `neighborhoods[i]` (all uses in range). -/
def nbhd (neighborhoods : List (List ℕ)) (i : ℕ) : List ℕ := neighborhoods.getD i []

/-- `is_core[i]` (all uses in range). -/
def isCoreAt (is_core : List Bool) (i : ℕ) : Bool := is_core.getD i false

/-- Bound on the length of any one neighbourhood list. -/
def maxNbhdLen (neighborhoods : List (List ℕ)) : ℕ :=
  (neighborhoods.map List.length).foldr max 0

theorem nbhd_length_le (neighborhoods : List (List ℕ)) (i : ℕ) :
    (nbhd neighborhoods i).length ≤ maxNbhdLen neighborhoods := by
  induction neighborhoods generalizing i with
  | nil => simp [nbhd, maxNbhdLen]
  | cons nb rest ih =>
    cases i with
    | zero => simp [nbhd, maxNbhdLen]
    | succ n =>
      have := ih n
      simp only [nbhd, List.getD_cons_succ] at *
      simp only [maxNbhdLen, List.map_cons, List.foldr_cons] at *
      omega

/-- The stack push of `dbscan_inner`: when the current point is core,
push its yet-unlabelled neighbours (a LIFO stack: the pushed run is
reversed here and popped from the head below). -/
def dbscanPush (is_core : List Bool) (neighborhoods : List (List ℕ))
    (labels2 : List (Option ℕ)) (i : ℕ) (stack : List ℕ) : List ℕ :=
  if isCoreAt is_core i then
    ((nbhd neighborhoods i).filter fun v => labels2.get? v = some none).reverse ++ stack
  else stack

theorem dbscanPush_length_le (is_core : List Bool) (neighborhoods : List (List ℕ))
    (labels2 : List (Option ℕ)) (i : ℕ) (stack : List ℕ) :
    (dbscanPush is_core neighborhoods labels2 i stack).length ≤
      maxNbhdLen neighborhoods + stack.length := by
  unfold dbscanPush
  split
  · simp only [List.length_append, List.length_reverse]
    have h1 : ((nbhd neighborhoods i).filter
        fun v => labels2.get? v = some none).length ≤ (nbhd neighborhoods i).length :=
      List.length_filter_le _ _
    have h2 := nbhd_length_le neighborhoods i
    omega
  · omega

/-- The expansion loop of `dbscan_inner` (the `while True` with an
explicit stack), in worklist form: the head of `worklist` is the
current point `i`, its tail the stack, so `i :: stack` here is exactly
the pair (current point, stack) of the source, and an empty worklist is
the `break`.  Each step labels the current point if it is still
unlabelled, pushes its yet-unlabelled neighbours when it is core, then
pops the next point. -/
def dbscanExpand (is_core : List Bool) (neighborhoods : List (List ℕ)) (labelNum : ℕ) :
    List (Option ℕ) → List ℕ → List (Option ℕ)
  | labels, worklist =>
    match worklist with
    | [] => labels
    | i :: stack =>
      if h : labels.get? i = some none then
        dbscanExpand is_core neighborhoods labelNum (labels.set i (some labelNum))
          (dbscanPush is_core neighborhoods (labels.set i (some labelNum)) i stack)
      else dbscanExpand is_core neighborhoods labelNum labels stack
termination_by labels worklist =>
  unlabeledCount labels * (maxNbhdLen neighborhoods + 2) + worklist.length
decreasing_by
  · have hcount := unlabeledCount_set labels i labelNum h
    have hlen := dbscanPush_length_le is_core neighborhoods
      (labels.set i (some labelNum)) i stack
    have hmul : unlabeledCount labels * (maxNbhdLen neighborhoods + 2)
        = unlabeledCount (labels.set i (some labelNum)) * (maxNbhdLen neighborhoods + 2)
          + (maxNbhdLen neighborhoods + 2) := by
      rw [← hcount]; ring
    simp only [List.length_cons]
    omega
  · simp only [List.length_cons]
    omega

/-- The outer scan of `dbscan_inner`: visit the `n` points in index
order and start (then expand) a new cluster at each yet-unlabelled
core point. -/
def dbscanOuter (is_core : List Bool) (neighborhoods : List (List ℕ)) (n : ℕ) :
    List (Option ℕ) → ℕ → ℕ → List (Option ℕ)
  | labels, i, labelNum =>
    if i < n then
      if labels.get? i = some none ∧ isCoreAt is_core i then
        dbscanOuter is_core neighborhoods n
          (dbscanExpand is_core neighborhoods labelNum labels [i]) (i+1) (labelNum+1)
      else dbscanOuter is_core neighborhoods n labels (i+1) labelNum
    else labels
termination_by _ i _ => n - i

/-- `DBSCAN(eps, min_samples).fit_predict(coords)`: labels positional,
`none` for noise. -/
def dbscanLabels (coords : List (ℚ × ℚ)) (eps : ℚ) (minSamples : ℕ) : List (Option ℕ) :=
  dbscanOuter (coreFlags (precomputedNeighborhoods coords eps) minSamples)
    (precomputedNeighborhoods coords eps) coords.length
    (List.replicate coords.length none) 0 0

/-! ## `PatternMiner.analyze_geo_patterns` (lines 118–211) -/

/-- `t.hour` for a timestamp in seconds since the epoch (UTC). -/
def hourOf (ts : ℕ) : ℕ := ts / 3600 % 24

/-- One emitted `location_cluster` pattern.  `radius_meters` is carried
as its square (`radius_meters_sq`): the source computes
`sqrt(max squared distance) * 111000`, and squaring is an order
isomorphism on nonnegative reals, so `radius_meters_sq =
(max squared distance) * 111000²` carries exactly the same
information while staying inside `ℚ`. -/
structure GeoPattern where
  label : ℕ
  name : String
  description : String
  confidence : ℚ
  center_lat : ℚ
  center_lon : ℚ
  radius_meters_sq : ℚ
  first_seen : ℕ
  last_seen : ℕ
  occurrences : ℕ
  most_common_hour : ℕ
deriving DecidableEq, Repr

/-- The members of cluster `ℓ`: points whose positional label is
`some ℓ` (the boolean mask `labels == label` of the source). -/
def clusterMembers (points : List GeoPoint) (labels : List (Option ℕ)) (ℓ : ℕ) :
    List GeoPoint :=
  ((points.zip labels).filter fun pl => pl.2 = some ℓ).map Prod.fst

/-- `max(set(visit_hours), key=visit_hours.count) if visit_hours else
12`.  Hours are `< 24`; among tied counts Python's result depends on
set iteration order, modelled here as the smallest tied hour. -/
def mostCommonHour (hours : List ℕ) : ℕ :=
  if hours = [] then 12
  else
    let best := ((List.range 24).map fun h => hours.count h).foldr max 0
    ((List.range 24).find? fun h => hours.count h = best).getD 12

/-- `min(...)` over a (nonempty) list of timestamps, with the fallback
value the source uses for an empty list. -/
def minTs (l : List ℕ) (fallback : ℕ) : ℕ :=
  match l with
  | [] => fallback
  | t :: rest => rest.foldl min t

/-- `max(...)` over a (nonempty) list of timestamps. -/
def maxTs (l : List ℕ) (fallback : ℕ) : ℕ :=
  match l with
  | [] => fallback
  | t :: rest => rest.foldl max t

/-- The time-of-day naming table of the source (lines 181–188); note
the overlapping bounds: hour 9 hits the first branch, hour 18 the
second. -/
def nameHintFor (h : ℕ) : String :=
  if 6 ≤ h ∧ h ≤ 9 then "Утреннее место"
  else if 9 ≤ h ∧ h ≤ 18 then "Дневное место"
  else if 18 ≤ h ∧ h ≤ 22 then "Вечернее место"
  else "Ночное место"

/-- Build the pattern dictionary for one retained cluster (lines
159–207). -/
def mkGeoPattern (members : List GeoPoint) (ℓ : ℕ) (start_ts end_ts : ℕ) : GeoPattern :=
  let center_lat := (members.map fun m => m.lat).sum / members.length
  let center_lon := (members.map fun m => m.lon).sum / members.length
  let radius_deg_sq :=
    (members.map fun m => sqDist (center_lat, center_lon) (m.lat, m.lon)).foldr max 0
  let visit_hours := members.map fun m => hourOf m.ts
  let mch := mostCommonHour visit_hours
  { label := ℓ
    name := nameHintFor mch ++ " #" ++ toString ℓ
    description := "Часто посещаемое место (" ++ toString members.length ++ " посещений)"
    confidence := min (19/20) (1/2 + (members.length : ℚ) / 100)
    center_lat := center_lat
    center_lon := center_lon
    radius_meters_sq := radius_deg_sq * 111000^2
    first_seen := minTs (members.map fun m => m.ts) start_ts
    last_seen := maxTs (members.map fun m => m.ts) end_ts
    occurrences := members.length
    most_common_hour := mch }

/-- `PatternMiner.analyze_geo_patterns`: fewer than
`min_cluster_size` points yield an empty list (not an error);
otherwise DBSCAN labels are computed and one pattern is emitted per
non-noise label.  (`set(labels)` iterates in an unspecified order in
Python; labels are enumerated here in first-occurrence order, and no
claim depends on the order of the returned list.) -/
def analyze_geo_patterns (points : List GeoPoint) (min_cluster_size : ℕ)
    (start_ts end_ts : ℕ) : List GeoPattern :=
  if points.length < min_cluster_size then []
  else
    let coords := points.map fun p => (p.lat, p.lon)
    let labels := dbscanLabels coords dbscanEps min_cluster_size
    let uniqueLabels := firstOccurrences (labels.filterMap id)
    uniqueLabels.map fun ℓ => mkGeoPattern (clusterMembers points labels ℓ) ℓ start_ts end_ts

theorem mkGeoPattern_occurrences (mem : List GeoPoint) (l s e : ℕ) :
    (mkGeoPattern mem l s e).occurrences = mem.length := rfl

theorem mkGeoPattern_confidence (mem : List GeoPoint) (l s e : ℕ) :
    (mkGeoPattern mem l s e).confidence = min (19/20) (1/2 + (mem.length : ℚ) / 100) := rfl

/-! ## `PatternMiner.analyze_time_patterns` (lines 213–280)

Input: the `geo_hourly` rollup rows of
`ClickHouseDB.get_hourly_geo_summary`.  `hour` is a ClickHouse
`DateTime` truncated to the hour (non-nullable, so the source's
`h["hour"] if h["hour"] else 0` falsy-guard is never taken — a Python
`datetime` is always truthy), modelled as seconds since the epoch.
`center_lat`/`center_lon` are never read by the miner and are
omitted. -/

structure HourlyRollup where
  hour : ℕ
  points_count : ℕ
  avg_speed : ℚ := 0
  max_speed : ℚ := 0
deriving DecidableEq, Repr

/-- One emitted `routine` pattern. `hour` and `avg_points` are the
`data.hour` / `data.avg_points` entries of the source's dictionary. -/
structure RoutinePattern where
  name : String
  description : String
  confidence : ℚ
  time_pattern : String
  frequency_per_week : ℚ
  first_seen : ℕ
  last_seen : ℕ
  occurrences : ℕ
  hour : ℕ
  avg_points : ℚ
deriving DecidableEq, Repr

/-- The time bucket naming table of the routine miner (lines 251–258). -/
def routineNameFor (hour : ℕ) : String :=
  if 7 ≤ hour ∧ hour ≤ 9 then "Утренняя активность (возможно дорога на работу)"
  else if 12 ≤ hour ∧ hour ≤ 14 then "Обеденная активность"
  else if 17 ≤ hour ∧ hour ≤ 19 then "Вечерняя активность (возможно дорога домой)"
  else "Регулярная активность в " ++ toString hour ++ ":00"

/-- `(end_time - start_time).days` for timestamps in seconds
(`timedelta.days` floors toward minus infinity). -/
def windowDaysOf (start_ts end_ts : ℤ) : ℤ := (end_ts - start_ts).fdiv 86400

/-- `PatternMiner.analyze_time_patterns`: group the rollup rows by
hour-of-day (insertion-ordered dict), and for each hour with at least 5
rows and mean point count strictly above 10 emit one `routine`
pattern. -/
def analyze_time_patterns (hourly : List HourlyRollup) (start_ts end_ts : ℤ) :
    List RoutinePattern :=
  if hourly.isEmpty then []
  else
    let hour_activity := groupByKey (fun h => hourOf h.hour) hourly
    hour_activity.flatMap fun ha =>
      let hour := ha.1
      let activities := ha.2
      if 5 ≤ activities.length then
        let avg_points : ℚ :=
          (activities.map fun a => (a.points_count : ℚ)).sum / activities.length
        if 10 < avg_points then
          [{ name := routineNameFor hour
             description := "Регулярная активность около " ++ toString hour ++ ":00 (" ++
               toString activities.length ++ " дней)"
             confidence := min (9/10) (2/5 + (activities.length : ℚ) / 30)
             time_pattern := "0 " ++ toString hour ++ " * * *"
             frequency_per_week :=
               (activities.length : ℚ) / ((windowDaysOf start_ts end_ts : ℚ) / 7)
             first_seen := minTs (activities.map fun a => a.hour) 0
             last_seen := maxTs (activities.map fun a => a.hour) 0
             occurrences := activities.length
             hour := hour
             avg_points := avg_points }]
        else []
      else []

/-! ### Invariants of the DBSCAN loops

`dbscanExpand` preserves the length of the label array, never changes
an already-assigned label, and only ever assigns the label it was
started with; consequently every cluster keeps its seed, which the
outer loop only picks among core points. -/

theorem dbscanExpand_spec (is_core : List Bool) (nbs : List (List ℕ)) (labelNum : ℕ) :
    ∀ (labels : List (Option ℕ)) (worklist : List ℕ),
      (dbscanExpand is_core nbs labelNum labels worklist).length = labels.length ∧
      (∀ k v, labels.get? k = some (some v) →
        (dbscanExpand is_core nbs labelNum labels worklist).get? k = some (some v)) ∧
      (∀ k v, (dbscanExpand is_core nbs labelNum labels worklist).get? k = some (some v) →
        labels.get? k = some (some v) ∨ v = labelNum)
  | labels, [] => by
    unfold dbscanExpand
    exact ⟨rfl, fun k v h => h, fun k v h => Or.inl h⟩
  | labels, i :: stack => by
    by_cases h : labels.get? i = some none
    · have IH := dbscanExpand_spec is_core nbs labelNum (labels.set i (some labelNum))
        (dbscanPush is_core nbs (labels.set i (some labelNum)) i stack)
      rw [dbscanExpand]
      rw [dif_pos h]
      have hlt : i < labels.length := by
        by_contra hge
        rw [List.get?_eq_getElem?, List.getElem?_eq_none (by omega)] at h
        exact Option.noConfusion h
      refine ⟨IH.1.trans (List.length_set _ _ _), ?_, ?_⟩
      · intro k v hk
        apply IH.2.1
        rcases eq_or_ne i k with rfl | hne
        · rw [hk] at h
          exact Option.noConfusion h (fun he => Option.noConfusion he)
        · rw [List.get?_eq_getElem?, List.getElem?_set_ne hne, ← List.get?_eq_getElem?]
          exact hk
      · intro k v hk
        rcases IH.2.2 k v hk with hset | hv
        · rcases eq_or_ne i k with rfl | hne
          · rw [List.get?_eq_getElem?, List.getElem?_set_self hlt] at hset
            cases hset
            exact Or.inr rfl
          · rw [List.get?_eq_getElem?, List.getElem?_set_ne hne,
              ← List.get?_eq_getElem?] at hset
            exact Or.inl hset
        · exact Or.inr hv
    · have IH := dbscanExpand_spec is_core nbs labelNum labels stack
      rw [dbscanExpand]
      rw [dif_neg h]
      exact IH
termination_by labels worklist =>
  unlabeledCount labels * (maxNbhdLen nbs + 2) + worklist.length
decreasing_by
  · have hcount := unlabeledCount_set labels i labelNum h
    have hlen := dbscanPush_length_le is_core nbs (labels.set i (some labelNum)) i stack
    have hmul : unlabeledCount labels * (maxNbhdLen nbs + 2)
        = unlabeledCount (labels.set i (some labelNum)) * (maxNbhdLen nbs + 2)
          + (maxNbhdLen nbs + 2) := by
      rw [← hcount]; ring
    simp only [List.length_cons]
    omega
  · simp only [List.length_cons]
    omega

/-- The seed of each expansion ends up carrying the cluster's label. -/
theorem dbscanExpand_seed (is_core : List Bool) (nbs : List (List ℕ)) (labelNum : ℕ)
    (labels : List (Option ℕ)) (stack : List ℕ) (i : ℕ)
    (h : labels.get? i = some none) :
    (dbscanExpand is_core nbs labelNum labels (i :: stack)).get? i = some (some labelNum) := by
  rw [dbscanExpand, dif_pos h]
  have hlt : i < labels.length := by
    by_contra hge
    rw [List.get?_eq_getElem?, List.getElem?_eq_none (by omega)] at h
    exact Option.noConfusion h
  apply (dbscanExpand_spec is_core nbs labelNum _ _).2.1
  rw [List.get?_eq_getElem?, List.getElem?_set_self hlt]

/-- Spec-side for the core-point claims: how many input points lie
within `eps` of the position `p` (the point itself included when it is
in the list). -/
def pointNeighborCount (coords : List (ℚ × ℚ)) (p : ℚ × ℚ) : ℕ :=
  coords.countP fun q => sqDist p q ≤ dbscanEps^2

theorem map_getD_range (l : List α) (d : α) :
    (List.range l.length).map (fun j => l.getD j d) = l := by
  induction l using List.reverseRecOn with
  | nil => rfl
  | append_singleton l' a ih =>
    rw [List.length_append, List.length_singleton, List.range_succ, List.map_append]
    congr 1
    · have hstep : List.map (fun j => (l' ++ [a]).getD j d) (List.range l'.length)
          = List.map (fun j => l'.getD j d) (List.range l'.length) := by
        apply List.map_congr_left
        intro j hj
        rw [List.mem_range] at hj
        rw [List.getD_eq_getElem?_getD, List.getD_eq_getElem?_getD,
          List.getElem?_append_left hj]
      rw [hstep, ih]
    · simp [List.getD_eq_getElem?_getD, List.getElem?_append_right (le_refl l'.length)]

theorem length_filter_range_getD (l : List α) (d : α) (p : α → Bool) :
    ((List.range l.length).filter fun j => p (l.getD j d)).length = l.countP p := by
  have h1 : l.countP p = ((List.range l.length).map fun j => l.getD j d).countP p := by
    rw [map_getD_range]
  rw [h1, List.countP_map, List.countP_eq_length_filter]
  rfl

/-- The length of a point's neighbourhood list is its neighbour
count. -/
theorem neighborsIdx_length_eq (coords : List (ℚ × ℚ)) (k : ℕ) :
    (neighborsIdx coords dbscanEps k).length = pointNeighborCount coords (nthCoord coords k) := by
  unfold neighborsIdx pointNeighborCount nthCoord
  exact length_filter_range_getD coords (0, 0)
    fun q => decide (sqDist (coords.getD k (0, 0)) q ≤ dbscanEps^2)

theorem nbhd_precomputed (coords : List (ℚ × ℚ)) (eps : ℚ) (k : ℕ)
    (hk : k < coords.length) :
    nbhd (precomputedNeighborhoods coords eps) k = neighborsIdx coords eps k := by
  unfold nbhd precomputedNeighborhoods
  rw [List.getD_eq_getElem?_getD, List.getElem?_map, List.getElem?_range hk]
  rfl

theorem isCoreAt_coreFlags (nbs : List (List ℕ)) (m k : ℕ) (hk : k < nbs.length) :
    isCoreAt (coreFlags nbs m) k = decide (m ≤ (nbhd nbs k).length) := by
  unfold isCoreAt coreFlags nbhd
  rw [List.getD_eq_getElem?_getD, List.getElem?_map,
    List.getD_eq_getElem?_getD]
  rw [List.getElem?_eq_getElem hk]
  rfl

theorem isCoreAt_lt (is_core : List Bool) (k : ℕ) (h : isCoreAt is_core k = true) :
    k < is_core.length := by
  by_contra hge
  unfold isCoreAt at h
  rw [List.getD_eq_getElem?_getD, List.getElem?_eq_none (by omega)] at h
  simp at h

/-- The outer DBSCAN loop preserves the label-array length and the
invariant that every assigned label has a core bearer. -/
theorem dbscanOuter_inv (is_core : List Bool) (nbs : List (List ℕ)) (n : ℕ) :
    ∀ (labels : List (Option ℕ)) (i labelNum : ℕ),
      (∀ ℓ k, labels.get? k = some (some ℓ) →
        ∃ kc, labels.get? kc = some (some ℓ) ∧ isCoreAt is_core kc = true) →
      (dbscanOuter is_core nbs n labels i labelNum).length = labels.length ∧
      ∀ ℓ k, (dbscanOuter is_core nbs n labels i labelNum).get? k = some (some ℓ) →
        ∃ kc, (dbscanOuter is_core nbs n labels i labelNum).get? kc = some (some ℓ) ∧
          isCoreAt is_core kc = true
  | labels, i, labelNum => fun hinv => by
    by_cases hin : i < n
    · by_cases hcond : labels.get? i = some none ∧ isCoreAt is_core i = true
      · have hspec := dbscanExpand_spec is_core nbs labelNum labels [i]
        have hseed := dbscanExpand_seed is_core nbs labelNum labels [] i hcond.1
        have hinv' : ∀ ℓ k,
            (dbscanExpand is_core nbs labelNum labels [i]).get? k = some (some ℓ) →
            ∃ kc, (dbscanExpand is_core nbs labelNum labels [i]).get? kc = some (some ℓ) ∧
              isCoreAt is_core kc = true := by
          intro ℓ k hk
          rcases hspec.2.2 k ℓ hk with hold | rfl
          · obtain ⟨kc, hkc, hc⟩ := hinv ℓ k hold
            exact ⟨kc, hspec.2.1 kc ℓ hkc, hc⟩
          · exact ⟨i, hseed, hcond.2⟩
        have IH := dbscanOuter_inv is_core nbs n
          (dbscanExpand is_core nbs labelNum labels [i]) (i+1) (labelNum+1) hinv'
        rw [dbscanOuter, if_pos hin, if_pos hcond]
        exact ⟨IH.1.trans hspec.1, IH.2⟩
      · have IH := dbscanOuter_inv is_core nbs n labels (i+1) labelNum hinv
        rw [dbscanOuter, if_pos hin, if_neg hcond]
        exact IH
    · rw [dbscanOuter, if_neg hin]
      exact ⟨rfl, fun ℓ k h => hinv ℓ k h⟩
termination_by _ i _ => n - i
decreasing_by
  · omega
  · omega

theorem dbscanLabels_replicate_inv (coords : List (ℚ × ℚ)) (is_core : List Bool) :
    ∀ ℓ k, (List.replicate coords.length (none : Option ℕ)).get? k = some (some ℓ) →
      ∃ kc, (List.replicate coords.length (none : Option ℕ)).get? kc = some (some ℓ) ∧
        isCoreAt is_core kc = true := by
  intro ℓ k h
  rw [List.get?_eq_getElem?, List.getElem?_replicate] at h
  split at h <;> simp_all

/-- The label array has one entry per input point. -/
theorem dbscanLabels_length (coords : List (ℚ × ℚ)) (eps : ℚ) (m : ℕ) :
    (dbscanLabels coords eps m).length = coords.length := by
  unfold dbscanLabels
  exact (dbscanOuter_inv _ _ _ _ 0 0 (dbscanLabels_replicate_inv coords _)).1.trans
    (List.length_replicate _ _)

/-- Every assigned DBSCAN label has a core bearer. -/
theorem dbscanLabels_core (coords : List (ℚ × ℚ)) (eps : ℚ) (m ℓ k : ℕ)
    (h : (dbscanLabels coords eps m).get? k = some (some ℓ)) :
    ∃ kc, (dbscanLabels coords eps m).get? kc = some (some ℓ) ∧
      isCoreAt (coreFlags (precomputedNeighborhoods coords eps) m) kc = true :=
  (dbscanOuter_inv _ _ _ _ 0 0 (dbscanLabels_replicate_inv coords _)).2 ℓ k h

/-- A point whose positional label is `ℓ` is a member of cluster `ℓ`. -/
theorem mem_clusterMembers_of_get? (points : List GeoPoint) (labels : List (Option ℕ))
    (ℓ k : ℕ) (g : GeoPoint) (hp : points.get? k = some g)
    (hl : labels.get? k = some (some ℓ)) : g ∈ clusterMembers points labels ℓ := by
  unfold clusterMembers
  have hz : (points.zip labels).get? k = some (g, some ℓ) := by
    rw [List.get?_eq_getElem?, List.getElem?_zip_eq_some]
    rw [List.get?_eq_getElem?] at hp hl
    exact ⟨hp, hl⟩
  have hmem : (g, some ℓ) ∈ points.zip labels := by
    rw [List.mem_iff_get?]
    exact ⟨k, hz⟩
  exact List.mem_map_of_mem Prod.fst (List.mem_filter.mpr ⟨hmem, by simp⟩)

theorem mem_firstOccurrences [DecidableEq κ] (l : List κ) (k : κ) :
    k ∈ firstOccurrences l ↔ k ∈ l := by
  induction l with
  | nil => simp [firstOccurrences]
  | cons a rest ih =>
    simp only [firstOccurrences, List.mem_cons, List.mem_filter, decide_eq_true_eq]
    constructor
    · rintro (rfl | ⟨hk, _⟩)
      · exact Or.inl rfl
      · exact Or.inr (ih.mp hk)
    · rintro (rfl | hk)
      · exact Or.inl rfl
      · by_cases hak : k = a
        · exact Or.inl hak
        · exact Or.inr ⟨ih.mpr hk, hak⟩

theorem firstOccurrences_nodup [DecidableEq κ] (l : List κ) : (firstOccurrences l).Nodup := by
  induction l with
  | nil => simp [firstOccurrences]
  | cons a rest ih =>
    simp only [firstOccurrences, List.nodup_cons]
    constructor
    · intro hmem
      rw [List.mem_filter] at hmem
      simp at hmem
    · exact ih.filter _

/-- Every emitted geo pattern is `mkGeoPattern` of the members of an
assigned label. -/
theorem analyze_geo_mem (points : List GeoPoint) (m sts ets : ℕ) (p : GeoPattern)
    (hp : p ∈ analyze_geo_patterns points m sts ets) :
    ∃ ℓ, (∃ k, (dbscanLabels (points.map fun q => (q.lat, q.lon)) dbscanEps m).get? k
        = some (some ℓ)) ∧
      p = mkGeoPattern
        (clusterMembers points (dbscanLabels (points.map fun q => (q.lat, q.lon)) dbscanEps m) ℓ)
        ℓ sts ets := by
  simp only [analyze_geo_patterns] at hp
  by_cases hlen : points.length < m
  · rw [if_pos hlen] at hp
    simp at hp
  · rw [if_neg hlen] at hp
    rw [List.mem_map] at hp
    obtain ⟨ℓ, hℓ, rfl⟩ := hp
    refine ⟨ℓ, ?_, rfl⟩
    rw [mem_firstOccurrences, List.mem_filterMap] at hℓ
    obtain ⟨o, ho, hoid⟩ := hℓ
    rw [id] at hoid
    subst hoid
    rw [List.mem_iff_get?] at ho
    exact ho

/-- `points.map (fun q => (q.lat, q.lon))` evaluated at an index. -/
theorem nthCoord_map (points : List GeoPoint) (k : ℕ) (h : k < points.length) :
    nthCoord (points.map fun q => (q.lat, q.lon)) k =
      ((points.get ⟨k, h⟩).lat, (points.get ⟨k, h⟩).lon) := by
  unfold nthCoord
  rw [List.getD_eq_getElem?_getD, List.getElem?_map, List.getElem?_eq_getElem h]
  rfl

theorem length_precomputedNeighborhoods (coords : List (ℚ × ℚ)) (eps : ℚ) :
    (precomputedNeighborhoods coords eps).length = coords.length := by
  simp [precomputedNeighborhoods]

/-! ### Spec-side notions and lemmas for the routine-miner claim -/

/-- The rollup rows of a given hour-of-day. -/
def rowsAtHour (hourly : List HourlyRollup) (hr : ℕ) : List HourlyRollup :=
  hourly.filter fun r => hourOf r.hour = hr

/-- Mean point count of a list of rollup rows (`np.mean`). -/
def meanPointsCount (rows : List HourlyRollup) : ℚ :=
  (rows.map fun a => (a.points_count : ℚ)).sum / rows.length

theorem countP_flatMap (f : α → List β) (p : β → Bool) (l : List α) :
    (l.flatMap f).countP p = (l.map fun a => (f a).countP p).sum := by
  induction l with
  | nil => rfl
  | cons a rest ih =>
    simp only [List.flatMap_cons, List.countP_append, List.map_cons, List.sum_cons, ih]

/-- Over a duplicate-free key list, the count of groups matching a
fixed key and a key-determined condition is 0 or 1. -/
theorem sum_single_key (hr : ℕ) (T : ℕ → Prop) [DecidablePred T] :
    ∀ ks : List ℕ, ks.Nodup →
      (ks.map fun k => if k = hr ∧ T k then (1 : ℕ) else 0).sum =
        if hr ∈ ks ∧ T hr then 1 else 0 := by
  intro ks
  induction ks with
  | nil => simp
  | cons a rest ih =>
    intro hnd
    rw [List.nodup_cons] at hnd
    simp only [List.map_cons, List.sum_cons, ih hnd.2, List.mem_cons]
    by_cases hak : a = hr
    · subst hak
      have hnr := hnd.1
      split_ifs <;> simp_all <;> tauto
    · split_ifs <;> simp_all <;> tauto

theorem flatMap_map (g : β → List γ) (f : α → β) (l : List α) :
    (l.map f).flatMap g = l.flatMap fun a => g (f a) := by
  induction l with
  | nil => rfl
  | cons a rest ih => simp only [List.map_cons, List.flatMap_cons, ih]

/-- The filter of a list at key `k` is nonempty iff `k` occurs among
the keys. -/
theorem mem_map_iff_filter_ne_nil [DecidableEq κ] (key : α → κ) (l : List α) (k : κ) :
    k ∈ l.map key ↔ (l.filter fun a => key a = k) ≠ [] := by
  rw [List.mem_map]
  rw [Ne, List.filter_eq_nil_iff]
  constructor
  · rintro ⟨a, ha, rfl⟩ h
    have := h a ha
    simp at this
  · intro h
    push_neg at h
    obtain ⟨a, ha, hk⟩ := h
    have hk' : key a = k := by simpa using hk
    exact ⟨a, ha, hk'⟩

theorem mem_hours_iff (hourly : List HourlyRollup) (hr : ℕ) :
    hr ∈ (hourly.map fun h => hourOf h.hour) ↔ rowsAtHour hourly hr ≠ [] :=
  mem_map_iff_filter_ne_nil _ _ _

/-! ### Concrete configurations for the DBSCAN claims

`orderSensitivePoints`: two chains of four points each (all on the
`lon = 0` meridian, spaced in whole multiples of `eps = 0.001`), with a
shared border point at the origin lying within `eps` of the cores of
both chains.  Whichever cluster is expanded first claims the border
point, so the clustering depends on the input order.

`borderStealPoints`: a centre at the origin whose entire
`eps`-neighbourhood consists of border points of three earlier-scanned
clusters; the centre is core, but its cluster ends up a singleton. -/

def orderSensitivePoints : List GeoPoint :=
  [⟨-1/1000, 0, 0⟩, ⟨-2/1000, 0, 0⟩, ⟨-2/1000, 0, 0⟩, ⟨-3/1000, 0, 0⟩,
   ⟨0, 0, 0⟩, ⟨1/1000, 0, 0⟩, ⟨2/1000, 0, 0⟩, ⟨2/1000, 0, 0⟩]

def orderSensitiveCoords : List (ℚ × ℚ) :=
  [(-1/1000, 0), (-2/1000, 0), (-2/1000, 0), (-3/1000, 0),
   (0, 0), (1/1000, 0), (2/1000, 0), (2/1000, 0)]

def orderSensitiveCoordsRev : List (ℚ × ℚ) :=
  [(2/1000, 0), (2/1000, 0), (1/1000, 0), (0, 0),
   (-3/1000, 0), (-2/1000, 0), (-2/1000, 0), (-1/1000, 0)]

def borderStealPoints : List GeoPoint :=
  [⟨1/1000, 0, 0⟩, ⟨2/1000, 0, 0⟩, ⟨3/1000, 0, 0⟩, ⟨3/1000, 0, 0⟩,
   ⟨0, 1/1000, 0⟩, ⟨0, 2/1000, 0⟩, ⟨0, 3/1000, 0⟩, ⟨0, 3/1000, 0⟩,
   ⟨-1/1000, 0, 0⟩, ⟨-2/1000, 0, 0⟩, ⟨-3/1000, 0, 0⟩, ⟨-3/1000, 0, 0⟩,
   ⟨0, 0, 0⟩]

def borderStealCoords : List (ℚ × ℚ) :=
  [(1/1000, 0), (2/1000, 0), (3/1000, 0), (3/1000, 0),
   (0, 1/1000), (0, 2/1000), (0, 3/1000), (0, 3/1000),
   (-1/1000, 0), (-2/1000, 0), (-3/1000, 0), (-3/1000, 0),
   (0, 0)]

/-! ## `PatternMiner.generate_ai_insights` (lines 282–368)

The oracle round-trip (prompt, HTTP call, locating `[` … `]` in the
response text and `json.loads`) is modelled at its parsed boundary: the
argument is `none` when no AI client is configured, when the response
carries no parsable JSON array, or when the call raises — all three
paths return `[]` — and `some ds` when a JSON array of objects was
extracted, each with whatever of the four expected fields it carries.
The `id`/`time_range`/`ai_model` bookkeeping fields (uuid4, utcnow,
model name) are omitted; nothing reads them back. -/

/-- One element of the JSON array extracted from the oracle's reply.
Absent keys are `none` (`data.get(...)` with a default in the source). -/
structure InsightData where
  title : Option String := none
  description : Option String := none
  confidence : Option ℚ := none
  insight_type : Option String := none
deriving DecidableEq, Repr

/-- An insight dictionary as built by `generate_ai_insights`. -/
structure Insight where
  user_id : String
  insight_type : String
  title : String
  description : String
  confidence : ℚ
  evidence_count : ℕ
  reasoning : String
deriving DecidableEq, Repr

/-- `PatternMiner.generate_ai_insights`: every parsed array element
becomes an insight; `confidence` is `data.get("confidence", 0.5)` —
taken from the untrusted oracle output with no validation or
clamping. -/
def generate_ai_insights (user_id : String) (insightsData : Option (List InsightData))
    (nGeo nTime : ℕ) : List Insight :=
  match insightsData with
  | none => []
  | some ds => ds.map fun d =>
      { user_id := user_id
        insight_type := d.insight_type.getD "habit"
        title := d.title.getD ""
        description := d.description.getD ""
        confidence := d.confidence.getD (1/2)
        evidence_count := nGeo + nTime
        reasoning := "Based on " ++ toString nGeo ++ " location clusters and " ++
          toString nTime ++ " time patterns" }

/-- The confidence of every routine pattern is of the form
`min(0.9, 0.4 + n/30)`. -/
theorem analyze_time_confidence (hourly : List HourlyRollup) (sts ets : ℤ) :
    ∀ p ∈ analyze_time_patterns hourly sts ets,
      ∃ n : ℕ, p.confidence = min (9/10) (2/5 + (n : ℚ) / 30) := by
  intro p hp
  unfold analyze_time_patterns at hp
  split at hp
  · simp at hp
  · rw [List.mem_flatMap] at hp
    obtain ⟨ha, _, hpe⟩ := hp
    dsimp only at hpe
    split_ifs at hpe with h1 h2
    · rw [List.mem_singleton] at hpe
      subst hpe
      exact ⟨ha.2.length, rfl⟩
    · simp at hpe
    · simp at hpe

/-- Three coincident points at the origin: the smallest convenient
cluster (used to instantiate the universal cluster theorems). -/
def triplePoints : List GeoPoint := [⟨0, 0, 0⟩, ⟨0, 0, 0⟩, ⟨0, 0, 0⟩]

set_option maxHeartbeats 1000000 in
theorem triplePoints_out :
    analyze_geo_patterns triplePoints 3 0 0 = [mkGeoPattern triplePoints 0 0 0] := by
  have hnb : precomputedNeighborhoods [((0:ℚ), (0:ℚ)), (0, 0), (0, 0)] dbscanEps =
      [[0,1,2],[0,1,2],[0,1,2]] := by
    norm_num [precomputedNeighborhoods, neighborsIdx, nthCoord, sqDist, dbscanEps,
      List.range_succ]
  have hlbl : dbscanOuter (coreFlags [[0,1,2],[0,1,2],[0,1,2]] 3) [[0,1,2],[0,1,2],[0,1,2]] 3
      (List.replicate 3 none) 0 0 = [some 0, some 0, some 0] := by
    simp [dbscanOuter, dbscanExpand, dbscanPush, isCoreAt, nbhd, coreFlags,
      List.replicate, List.getD]
  have hres : dbscanLabels [((0:ℚ), (0:ℚ)), (0, 0), (0, 0)] dbscanEps 3 =
      [some 0, some 0, some 0] := by
    rw [dbscanLabels, hnb]
    exact hlbl
  have hmap : triplePoints.map (fun p => (p.lat, p.lon)) =
      [((0:ℚ), (0:ℚ)), (0, 0), (0, 0)] := rfl
  have hfo : firstOccurrences
      (([some 0, some 0, some 0] : List (Option ℕ)).filterMap id) = [0] := by decide
  have hm : clusterMembers triplePoints [some 0, some 0, some 0] 0 = triplePoints := rfl
  simp only [analyze_geo_patterns]
  rw [if_neg (by decide)]
  simp only [hmap, hres, hfo]
  simp only [List.map_cons, List.map_nil, hm]

theorem triplePoints_mem :
    mkGeoPattern triplePoints 0 0 0 ∈ analyze_geo_patterns triplePoints 3 0 0 := by
  rw [triplePoints_out]
  exact List.mem_singleton.mpr rfl

/-! ## The batch ingest endpoint (`api/ingest.py`, `ingest_events`)

The request body is an `EventBatch` whose `events` field has type
`list[LifeEvent]`, `LifeEvent` being the union `GeoEvent | PurchaseEvent
| SocialEvent | HealthEvent | ActivityEvent | CustomEvent`
(`models.py`).  FastAPI/pydantic validate the whole body before the
handler runs: one raw object that matches no union member fails the
`events` field, the request is answered with HTTP 422 and the handler
body never executes.  A raw JSON event object is modelled by the fields
the union members constrain (floats as `ℚ`); `ts`, `source`,
`device_id` and the members' unconstrained optional fields play no role
in validation and are omitted. -/

structure RawEvent where
  type : String
  lat : Option ℚ := none
  lon : Option ℚ := none
  accuracy : Option ℚ := none
  speed : Option ℚ := none
  heading : Option ℚ := none
  item : Option String := none
  amount : Option ℚ := none
  action : Option String := none
  metric : Option String := none
  value : Option ℚ := none
  activity : Option String := none
  duration_minutes : Option ℤ := none
  event_subtype : Option String := none

/-- A validated union member, carrying its required fields. -/
inductive LifeEvent where
  | geo (lat lon : ℚ)
  | purchase (item : String) (amount : ℚ)
  | social (action : String)
  | health (metric : String) (value : ℚ)
  | activity (activity : String) (duration_minutes : ℤ)
  | custom (event_subtype : String)

/-- The eight values of the `EventType` enum (`models.py` lines 11–20);
every union member's inherited `type` field is an `EventType`, so a raw
object whose `type` string is not one of these fails every member. -/
def eventTypeValues : List String :=
  ["geo", "purchase", "transaction", "social", "health", "activity",
   "communication", "custom"]

/-- An optional constrained field: absent is fine, present must satisfy
the bound. -/
def optWithin (o : Option ℚ) (p : ℚ → Bool) : Bool :=
  match o with
  | none => true
  | some x => p x

/-- `GeoEvent`: `lat` and `lon` required with bounds `[-90, 90]` and
`[-180, 180]`; `accuracy` and `speed` optional with `ge=0`; `heading`
optional with `ge=0, lt=360`. -/
def tryGeo (r : RawEvent) : Option LifeEvent :=
  match r.lat, r.lon with
  | some la, some lo =>
      if (decide (-90 ≤ la) && decide (la ≤ 90) && decide (-180 ≤ lo) && decide (lo ≤ 180)
          && optWithin r.accuracy (fun a => decide (0 ≤ a))
          && optWithin r.speed (fun s => decide (0 ≤ s))
          && optWithin r.heading (fun h => decide (0 ≤ h) && decide (h < 360))) then
        some (.geo la lo)
      else none
  | _, _ => none

/-- `PurchaseEvent`: `item` and `amount` required, `amount ≥ 0`. -/
def tryPurchase (r : RawEvent) : Option LifeEvent :=
  match r.item, r.amount with
  | some it, some am => if decide (0 ≤ am) then some (.purchase it am) else none
  | _, _ => none

/-- `SocialEvent`: `action` required. -/
def trySocial (r : RawEvent) : Option LifeEvent :=
  r.action.map .social

/-- `HealthEvent`: `metric` and `value` required. -/
def tryHealth (r : RawEvent) : Option LifeEvent :=
  match r.metric, r.value with
  | some m, some v => some (.health m v)
  | _, _ => none

/-- `ActivityEvent`: `activity` and `duration_minutes` required. -/
def tryActivity (r : RawEvent) : Option LifeEvent :=
  match r.activity, r.duration_minutes with
  | some a, some d => some (.activity a d)
  | _, _ => none

/-- `CustomEvent`: `event_subtype` required. -/
def tryCustom (r : RawEvent) : Option LifeEvent :=
  r.event_subtype.map .custom

/-- pydantic validation of one element of `list[LifeEvent]`: the `type`
field must be an `EventType` value and the object must satisfy some
union member (members tried in declaration order; for the inputs of the
claims at most one member's required fields are present, so the order
among succeeding members is immaterial). -/
def parseLifeEvent (r : RawEvent) : Option LifeEvent :=
  if eventTypeValues.contains r.type then
    ((((tryGeo r).or (tryPurchase r)).or (trySocial r)).or (tryHealth r)).or
      ((tryActivity r).or (tryCustom r))
  else none

/-- pydantic validation of the whole `events: list[LifeEvent]` field:
every element must validate, otherwise the request fails with HTTP 422
before the handler runs. -/
def parseBatch : List RawEvent → Option (List LifeEvent)
  | [] => some []
  | r :: rest =>
      match parseLifeEvent r, parseBatch rest with
      | some e, some es => some (e :: es)
      | _, _ => none

/-- `ClickHouseDB.insert_events` builds one row per event and returns
`len(rows)`. -/
def insert_events (events : List LifeEvent) : ℕ := events.length

/-- What the endpoint answers: a 200 `IngestResponse`, or an HTTP error
status (422 from body validation, 400 from the empty-batch check). -/
inductive IngestOutcome where
  | response (events_received events_stored : ℕ) (errors : List String)
  | clientError (status_code : ℕ)

/-- `ingest_events` (lines 66–115).  The handler body only runs on a
batch that passed pydantic validation.  Its per-event loop is
`try: valid_events.append(event) except Exception: errors.append(...)`;
`list.append` never raises, so every event of a validated batch is kept
and `errors` stays `[]`. -/
def ingest_events (raws : List RawEvent) : IngestOutcome :=
  match parseBatch raws with
  | none => .clientError 422
  | some events =>
      let errors : List String := []
      let valid_events := events
      if valid_events.isEmpty then .clientError 400
      else .response events.length (insert_events valid_events) errors

/-- A valid geo event, as in the endpoint's own docstring example. -/
def c1GoodGeo : RawEvent := { type := "geo", lat := some (5575/100), lon := some (3761/100) }

/-- A geo event missing the required `lat`: it fails `GeoEvent` and
every other union member. -/
def c1BadGeo : RawEvent := { type := "geo", lon := some (3761/100) }

/-- A valid purchase event. -/
def c1GoodPurchase : RawEvent := { type := "purchase", item := some "Latte", amount := some 300 }

/-- A batch of three events whose middle event is invalid. -/
def c1Batch : List RawEvent := [c1GoodGeo, c1BadGeo, c1GoodPurchase]

/-! ## `ClickHouseDB.save_pattern` and re-running the miner (C9)

`save_pattern` (clickhouse.py lines 318–349) executes a plain
`client.insert("patterns", [row], ...)`: it issues no UPDATE/ALTER, it
never touches previously stored rows, and the inserted row's
`is_active` column is `pattern.get("is_active", True)` — the miner's
pattern dicts carry no `is_active` key, so every saved row is active.
The table state is modelled as the list of its rows; the `data` JSON
dump column, which no claim touches, is omitted. -/

structure PatternRow where
  user_id : String
  pattern_type : String
  name : String
  description : String
  confidence : ℚ
  center_lat : Option ℚ
  center_lon : Option ℚ
  radius_sq : Option ℚ
  time_pattern : String
  frequency_per_week : ℚ
  first_seen : ℕ
  last_seen : ℕ
  occurrences : ℕ
  is_active : Bool

/-- `save_pattern`: a plain INSERT appending one row. -/
def save_pattern (table : List PatternRow) (row : PatternRow) : List PatternRow :=
  table ++ [row]

/-- The row `save_pattern` builds from a geo pattern dict after
`run_analysis` stamped `pattern["user_id"]`: `center_lat`/`center_lon`
and the radius are present, `time_pattern` defaults to `""`,
`frequency_per_week` to `0`, and `is_active` to `True` (the dict has no
such key).  The `radius` column carries the square of the stored value,
consistently with `GeoPattern.radius_meters_sq`. -/
def geoPatternRow (uid : String) (p : GeoPattern) : PatternRow :=
  { user_id := uid
    pattern_type := "location_cluster"
    name := p.name
    description := p.description
    confidence := p.confidence
    center_lat := some p.center_lat
    center_lon := some p.center_lon
    radius_sq := some p.radius_meters_sq
    time_pattern := ""
    frequency_per_week := 0
    first_seen := p.first_seen
    last_seen := p.last_seen
    occurrences := p.occurrences
    is_active := true }

/-- The save loop of `run_analysis` (lines 104–107) restricted to the
geo patterns found: each pattern is saved, in order, into the table
state. -/
def run_analysis_saves (uid : String) : List PatternRow → List GeoPattern → List PatternRow
  | table, [] => table
  | table, p :: rest => run_analysis_saves uid (save_pattern table (geoPatternRow uid p)) rest

end LifeStream

namespace LifeStreamClaims

open LifeStream

/-- C3, counterexample: when today is a Saturday (weekday 5), the
weekend branch of `_parse_time_from_question` resolves to the previous
week's Saturday (7 days back), not to the most recent Saturday (today).
Concrete input: `now` = day 5 (a Saturday) at 12:00, question
"где я был в выходные", no explicit dates: the resolved start day is
`-2`, while the most recent Saturday is day `5`. -/
theorem C3_weekend_cex :
    weekendBranchTaken "где я был в выходные" ∧
    (⟨5, 12, 0, 0, 0⟩ : DT).weekday = 5 ∧
    ¬ resolvesToMostRecentWeekend ⟨5, 12, 0, 0, 0⟩
      (parse_time_from_question "где я был в выходные" none none ⟨5, 12, 0, 0, 0⟩) := by
  refine ⟨by decide, by decide, ?_⟩
  intro h
  have h1 := h.1
  revert h1
  decide

/-- C3, amended: for every memory query whose (lowered) text takes the
weekend branch and that carries no explicit start and end dates,
time-range resolution returns the most recent Saturday at 00:00:00 as
the start and the following Sunday at 23:59:59 as the end — provided
the current day is not itself a Saturday.  When today is Saturday, the
code instead returns the Saturday 7 days back (see `C3_weekend_cex`). -/
theorem C3_weekend_range_amended (now : DT) (q : String)
    (hq : weekendBranchTaken q) (hw : now.weekday ≠ 5) :
    resolvesToMostRecentWeekend now (parse_time_from_question q none none now) := by
  obtain ⟨h1, h2, h3, h4, h5⟩ := hq
  have h5' : (containsSub (lowerStr q) "выходные" || containsSub (lowerStr q) "weekend") = true := by
    rcases h5 with h | h <;> simp [h]
  unfold DT.weekday at hw
  unfold parse_time_from_question
  simp only [h1, h2, h3, h4, h5', Bool.or_self, Bool.false_eq_true, if_false, if_true,
    Bool.true_eq_false, reduceIte]
  unfold resolvesToMostRecentWeekend mostRecentSaturdayDay DT.weekday DT.subDays DT.atMidnight
    DT.atEndOfDay
  dsimp only
  refine ⟨by omega, by omega, by omega, by omega, rfl, rfl, rfl, rfl, by omega, rfl, rfl, rfl⟩

/-- C3 witness: a Monday (day 0) with the weekend question satisfies
the hypotheses, and the resolved range is the most recent weekend. -/
theorem C3_weekend_range_amended_witness :
    resolvesToMostRecentWeekend ⟨0, 10, 30, 0, 0⟩
      (parse_time_from_question "где я был в выходные" none none ⟨0, 10, 30, 0, 0⟩) :=
  C3_weekend_range_amended ⟨0, 10, 30, 0, 0⟩ "где я был в выходные" (by decide) (by decide)

/-- C6, counterexample: with zero events analyzed but one active
stored pattern and no AI client configured, the fallback answer counts
the pattern's context bullet line as an event and reports
"Найдено 1 событий…" instead of stating that no data was found — while
the confidence is still exactly 0.1. -/
theorem C6_zero_events_cex :
    calculate_confidence []
        (generate_simple_answer (build_context [] []
          [⟨"Утреннее место #0", "Часто посещаемое место (5 посещений)"⟩])) = 1/10 ∧
    generate_simple_answer (build_context [] []
        [⟨"Утреннее место #0", "Часто посещаемое место (5 посещений)"⟩]) ≠ noDataAnswer ∧
    containsSub (generate_simple_answer (build_context [] []
        [⟨"Утреннее место #0", "Часто посещаемое место (5 посещений)"⟩]))
      "Найдено 1 событий" = true :=
  ⟨rfl, by decide, by decide⟩

/-- C6, amended: `_calculate_confidence` equals the spec formula
`clamp(0.5 + min(0.5, n/100) − 0.1·hedges, 0.1, 0.95)` whenever at
least one event was analyzed, and is exactly 0.1 with zero events; the
no-AI fallback answer states that no data was found when the assembled
context carries no bullet lines at all (zero events, no people, no
active patterns).  With zero events but a nonempty pattern context the
fallback answer does not state this (see `C6_zero_events_cex`), and
with an AI client configured the answer text is oracle output. -/
theorem C6_confidence_amended :
    (∀ (events : List CHEvent) (answer : String), events ≠ [] →
      calculate_confidence events answer = confidenceFormula events.length (hedgeCount answer)) ∧
    (∀ answer : String, calculate_confidence [] answer = 1/10) ∧
    generate_simple_answer (build_context [] [] []) = noDataAnswer := by
  refine ⟨?_, fun _ => rfl, by decide⟩
  intro events answer h
  match events with
  | e :: rest =>
    simp only [calculate_confidence, confidenceFormula, hedgeCount, List.isEmpty_cons,
      Bool.false_eq_true, if_false]
    congr 2
    ring

/-- C6 witness: one analyzed event and the hedging answer "возможно". -/
theorem C6_confidence_amended_witness :
    calculate_confidence [{ id := "1", event_type := "geo" }] "возможно, дома" =
      confidenceFormula 1 (hedgeCount "возможно, дома") :=
  C6_confidence_amended.1 [{ id := "1", event_type := "geo" }] "возможно, дома" (by simp)

/-- C10: `_extract_locations` ignores events whose latitude or
longitude is absent or exactly `0.0` (dropping them from the input
changes nothing); the result has at most 20 entries, pairwise distinct
at 4-decimal precision; and every entry carries the exact nonzero
coordinates and timestamp of some input event. -/
theorem C10_zero_coordinate_locations (events : List CHEvent) :
    extract_locations events = extract_locations (events.filter fun e => decide (coordsUsable e)) ∧
    (extract_locations events).length ≤ 20 ∧
    (extract_locations events).Pairwise
      (fun l1 l2 => locKey l1.lat l1.lon ≠ locKey l2.lat l2.lon) ∧
    ∀ l ∈ extract_locations events, ∃ e ∈ events,
      e.latitude = some l.lat ∧ e.longitude = some l.lon ∧ e.timestamp = l.timestamp ∧
      l.lat ≠ 0 ∧ l.lon ≠ 0 := by
  refine ⟨?_, ?_, ?_, ?_⟩
  · unfold extract_locations
    rw [extract_locations_loop_filter]
  · simp only [extract_locations, List.length_take]
    omega
  · exact List.Pairwise.sublist (List.take_sublist _ _) (extract_locations_loop_inv events []).2
  · intro l hl
    exact extract_locations_loop_mem events [] l (List.mem_of_mem_take hl)

set_option maxHeartbeats 2000000 in
/-- C8, counterexample: the same multiset of eight geo points, fed in
two different orders (one list is the reverse of the other, hence a
permutation), with identical parameters (`min_cluster_size = 4`),
yields different clusterings: in the first order the clusters have 5
and 3 members, in the reversed order 4 and 4 — the shared border point
at the origin is claimed by whichever cluster is expanded first.  So
the emitted patterns (membership, centres, occurrences) are not
determined by the input point set alone. -/
theorem C8_geo_order_cex :
    (orderSensitivePoints.reverse).Perm orderSensitivePoints ∧
    ((analyze_geo_patterns orderSensitivePoints 4 0 0).map fun p => p.occurrences) = [5, 3] ∧
    ((analyze_geo_patterns orderSensitivePoints.reverse 4 0 0).map fun p => p.occurrences)
      = [4, 4] := by
  refine ⟨List.reverse_perm _, ?_, ?_⟩
  · have hmap : orderSensitivePoints.map (fun p => (p.lat, p.lon)) = orderSensitiveCoords :=
      rfl
    have hnb : precomputedNeighborhoods orderSensitiveCoords dbscanEps =
        [[0,1,2,4],[0,1,2,3],[0,1,2,3],[1,2,3],[0,4,5],[4,5,6,7],[5,6,7],[5,6,7]] := by
      norm_num [precomputedNeighborhoods, neighborsIdx, nthCoord, sqDist, dbscanEps,
        List.range_succ, orderSensitiveCoords]
    have hlbl : dbscanOuter
        (coreFlags [[0,1,2,4],[0,1,2,3],[0,1,2,3],[1,2,3],[0,4,5],[4,5,6,7],[5,6,7],[5,6,7]] 4)
        [[0,1,2,4],[0,1,2,3],[0,1,2,3],[1,2,3],[0,4,5],[4,5,6,7],[5,6,7],[5,6,7]] 8
        (List.replicate 8 none) 0 0 =
        [some 0, some 0, some 0, some 0, some 0, some 1, some 1, some 1] := by
      simp [dbscanOuter, dbscanExpand, dbscanPush, isCoreAt, nbhd, coreFlags,
        List.replicate, List.getD]
    have hres : dbscanLabels orderSensitiveCoords dbscanEps 4 =
        [some 0, some 0, some 0, some 0, some 0, some 1, some 1, some 1] := by
      rw [dbscanLabels, hnb]
      exact hlbl
    have hm0 : clusterMembers orderSensitivePoints
        [some 0, some 0, some 0, some 0, some 0, some 1, some 1, some 1] 0 =
        [⟨-1/1000, 0, 0⟩, ⟨-2/1000, 0, 0⟩, ⟨-2/1000, 0, 0⟩, ⟨-3/1000, 0, 0⟩, ⟨0, 0, 0⟩] := rfl
    have hm1 : clusterMembers orderSensitivePoints
        [some 0, some 0, some 0, some 0, some 0, some 1, some 1, some 1] 1 =
        [⟨1/1000, 0, 0⟩, ⟨2/1000, 0, 0⟩, ⟨2/1000, 0, 0⟩] := rfl
    have hfo : firstOccurrences
        (([some 0, some 0, some 0, some 0, some 0, some 1, some 1, some 1] :
          List (Option ℕ)).filterMap id) = [0, 1] := by decide
    unfold analyze_geo_patterns
    rw [if_neg (by decide)]
    simp only [hmap, hres, hfo]
    simp only [List.map_cons, List.map_nil, mkGeoPattern_occurrences, hm0, hm1]
    decide
  · have hmap : orderSensitivePoints.reverse.map (fun p => (p.lat, p.lon)) =
        orderSensitiveCoordsRev := rfl
    have hnb : precomputedNeighborhoods orderSensitiveCoordsRev dbscanEps =
        [[0,1,2],[0,1,2],[0,1,2,3],[2,3,7],[4,5,6],[4,5,6,7],[4,5,6,7],[3,5,6,7]] := by
      norm_num [precomputedNeighborhoods, neighborsIdx, nthCoord, sqDist, dbscanEps,
        List.range_succ, orderSensitiveCoordsRev]
    have hlbl : dbscanOuter
        (coreFlags [[0,1,2],[0,1,2],[0,1,2,3],[2,3,7],[4,5,6],[4,5,6,7],[4,5,6,7],[3,5,6,7]] 4)
        [[0,1,2],[0,1,2],[0,1,2,3],[2,3,7],[4,5,6],[4,5,6,7],[4,5,6,7],[3,5,6,7]] 8
        (List.replicate 8 none) 0 0 =
        [some 0, some 0, some 0, some 0, some 1, some 1, some 1, some 1] := by
      simp [dbscanOuter, dbscanExpand, dbscanPush, isCoreAt, nbhd, coreFlags,
        List.replicate, List.getD]
    have hres : dbscanLabels orderSensitiveCoordsRev dbscanEps 4 =
        [some 0, some 0, some 0, some 0, some 1, some 1, some 1, some 1] := by
      rw [dbscanLabels, hnb]
      exact hlbl
    have hm0 : clusterMembers orderSensitivePoints.reverse
        [some 0, some 0, some 0, some 0, some 1, some 1, some 1, some 1] 0 =
        [⟨2/1000, 0, 0⟩, ⟨2/1000, 0, 0⟩, ⟨1/1000, 0, 0⟩, ⟨0, 0, 0⟩] := rfl
    have hm1 : clusterMembers orderSensitivePoints.reverse
        [some 0, some 0, some 0, some 0, some 1, some 1, some 1, some 1] 1 =
        [⟨-3/1000, 0, 0⟩, ⟨-2/1000, 0, 0⟩, ⟨-2/1000, 0, 0⟩, ⟨-1/1000, 0, 0⟩] := rfl
    have hfo : firstOccurrences
        (([some 0, some 0, some 0, some 0, some 1, some 1, some 1, some 1] :
          List (Option ℕ)).filterMap id) = [0, 1] := by decide
    unfold analyze_geo_patterns
    rw [if_neg (by decide)]
    simp only [hmap, hres, hfo]
    simp only [List.map_cons, List.map_nil, mkGeoPattern_occurrences, hm0, hm1]
    decide

set_option maxHeartbeats 2000000 in
/-- C7, counterexample: with `min_cluster_size = 4`, a core point whose
whole `eps`-neighbourhood consists of border points already claimed by
three earlier clusters seeds a cluster with a single member — the
emitted `location_cluster` pattern has `occurrences = 1 < 4 =
min_cluster_size`. -/
theorem C7_small_cluster_cex :
    ((analyze_geo_patterns borderStealPoints 4 0 0).map fun p => p.occurrences) = [4, 4, 4, 1] ∧
    ∃ p ∈ analyze_geo_patterns borderStealPoints 4 0 0, p.occurrences < 4 := by
  have hmap : borderStealPoints.map (fun p => (p.lat, p.lon)) = borderStealCoords := rfl
  have hnb : precomputedNeighborhoods borderStealCoords dbscanEps =
      [[0,1,12],[0,1,2,3],[1,2,3],[1,2,3],
       [4,5,12],[4,5,6,7],[5,6,7],[5,6,7],
       [8,9,12],[8,9,10,11],[9,10,11],[9,10,11],
       [0,4,8,12]] := by
    norm_num [precomputedNeighborhoods, neighborsIdx, nthCoord, sqDist, dbscanEps,
      List.range_succ, borderStealCoords]
  have hlbl : dbscanOuter
      (coreFlags [[0,1,12],[0,1,2,3],[1,2,3],[1,2,3],
        [4,5,12],[4,5,6,7],[5,6,7],[5,6,7],
        [8,9,12],[8,9,10,11],[9,10,11],[9,10,11],
        [0,4,8,12]] 4)
      [[0,1,12],[0,1,2,3],[1,2,3],[1,2,3],
        [4,5,12],[4,5,6,7],[5,6,7],[5,6,7],
        [8,9,12],[8,9,10,11],[9,10,11],[9,10,11],
        [0,4,8,12]] 13
      (List.replicate 13 none) 0 0 =
      [some 0, some 0, some 0, some 0, some 1, some 1, some 1, some 1,
       some 2, some 2, some 2, some 2, some 3] := by
    simp [dbscanOuter, dbscanExpand, dbscanPush, isCoreAt, nbhd, coreFlags,
      List.replicate, List.getD]
  have hres : dbscanLabels borderStealCoords dbscanEps 4 =
      [some 0, some 0, some 0, some 0, some 1, some 1, some 1, some 1,
       some 2, some 2, some 2, some 2, some 3] := by
    rw [dbscanLabels, hnb]
    exact hlbl
  have hfo : firstOccurrences
      (([some 0, some 0, some 0, some 0, some 1, some 1, some 1, some 1,
         some 2, some 2, some 2, some 2, some 3] : List (Option ℕ)).filterMap id) =
      [0, 1, 2, 3] := by decide
  have hm0 : clusterMembers borderStealPoints
      [some 0, some 0, some 0, some 0, some 1, some 1, some 1, some 1,
       some 2, some 2, some 2, some 2, some 3] 0 =
      [⟨1/1000, 0, 0⟩, ⟨2/1000, 0, 0⟩, ⟨3/1000, 0, 0⟩, ⟨3/1000, 0, 0⟩] := rfl
  have hm1 : clusterMembers borderStealPoints
      [some 0, some 0, some 0, some 0, some 1, some 1, some 1, some 1,
       some 2, some 2, some 2, some 2, some 3] 1 =
      [⟨0, 1/1000, 0⟩, ⟨0, 2/1000, 0⟩, ⟨0, 3/1000, 0⟩, ⟨0, 3/1000, 0⟩] := rfl
  have hm2 : clusterMembers borderStealPoints
      [some 0, some 0, some 0, some 0, some 1, some 1, some 1, some 1,
       some 2, some 2, some 2, some 2, some 3] 2 =
      [⟨-1/1000, 0, 0⟩, ⟨-2/1000, 0, 0⟩, ⟨-3/1000, 0, 0⟩, ⟨-3/1000, 0, 0⟩] := rfl
  have hm3 : clusterMembers borderStealPoints
      [some 0, some 0, some 0, some 0, some 1, some 1, some 1, some 1,
       some 2, some 2, some 2, some 2, some 3] 3 = [⟨0, 0, 0⟩] := rfl
  have hout : analyze_geo_patterns borderStealPoints 4 0 0 =
      [mkGeoPattern [⟨1/1000, 0, 0⟩, ⟨2/1000, 0, 0⟩, ⟨3/1000, 0, 0⟩, ⟨3/1000, 0, 0⟩] 0 0 0,
       mkGeoPattern [⟨0, 1/1000, 0⟩, ⟨0, 2/1000, 0⟩, ⟨0, 3/1000, 0⟩, ⟨0, 3/1000, 0⟩] 1 0 0,
       mkGeoPattern [⟨-1/1000, 0, 0⟩, ⟨-2/1000, 0, 0⟩, ⟨-3/1000, 0, 0⟩, ⟨-3/1000, 0, 0⟩] 2 0 0,
       mkGeoPattern [⟨0, 0, 0⟩] 3 0 0] := by
    unfold analyze_geo_patterns
    rw [if_neg (by decide)]
    simp only [hmap, hres, hfo]
    simp only [List.map_cons, List.map_nil, hm0, hm1, hm2, hm3]
  constructor
  · rw [hout]
    simp only [List.map_cons, List.map_nil, mkGeoPattern_occurrences]
    rfl
  · refine ⟨mkGeoPattern [⟨0, 0, 0⟩] 3 0 0, ?_, ?_⟩
    · rw [hout]
      simp
    · rw [mkGeoPattern_occurrences]
      decide

/-- C5: over any rollup input and any analysis window of a nonzero
whole number of days, the routine miner emits exactly one `routine`
pattern for an hour-of-day iff that hour has at least 5 rollup rows
and mean point count strictly above 10; every emitted pattern carries
`frequency_per_week = occurrences / (window_days / 7)` and
`confidence = min(0.9, 0.4 + occurrences/30)`; hours below either
threshold produce no pattern (and no error). -/
theorem C5_routine_iff (hourly : List HourlyRollup) (sts ets : ℤ)
    (hw : windowDaysOf sts ets ≠ 0) :
    (∀ hr : ℕ,
      ((analyze_time_patterns hourly sts ets).countP fun p => p.hour = hr) =
        if 5 ≤ (rowsAtHour hourly hr).length ∧
            10 < meanPointsCount (rowsAtHour hourly hr) then 1 else 0) ∧
    ∀ p ∈ analyze_time_patterns hourly sts ets,
      p.frequency_per_week = (p.occurrences : ℚ) / ((windowDaysOf sts ets : ℚ) / 7) ∧
      p.confidence = min (9/10) (2/5 + (p.occurrences : ℚ) / 30) ∧
      p.occurrences = (rowsAtHour hourly p.hour).length ∧
      5 ≤ p.occurrences ∧ 10 < meanPointsCount (rowsAtHour hourly p.hour) := by
  by_cases hemp : hourly.isEmpty
  · have h0 : hourly = [] := by
      cases hourly
      · rfl
      · simp at hemp
    subst h0
    refine ⟨fun hr => ?_, fun p hp => ?_⟩
    · simp [analyze_time_patterns, rowsAtHour, meanPointsCount]
    · simp [analyze_time_patterns] at hp
  · have hout : analyze_time_patterns hourly sts ets =
        (firstOccurrences (hourly.map fun h => hourOf h.hour)).flatMap fun k =>
          if 5 ≤ (rowsAtHour hourly k).length then
            if 10 < meanPointsCount (rowsAtHour hourly k) then
              [{ name := routineNameFor k
                 description := "Регулярная активность около " ++ toString k ++ ":00 (" ++
                   toString (rowsAtHour hourly k).length ++ " дней)"
                 confidence := min (9/10) (2/5 + ((rowsAtHour hourly k).length : ℚ) / 30)
                 time_pattern := "0 " ++ toString k ++ " * * *"
                 frequency_per_week :=
                   ((rowsAtHour hourly k).length : ℚ) / ((windowDaysOf sts ets : ℚ) / 7)
                 first_seen := minTs ((rowsAtHour hourly k).map fun a => a.hour) 0
                 last_seen := maxTs ((rowsAtHour hourly k).map fun a => a.hour) 0
                 occurrences := (rowsAtHour hourly k).length
                 hour := k
                 avg_points := meanPointsCount (rowsAtHour hourly k) }]
            else []
          else [] := by
      unfold analyze_time_patterns groupByKey
      rw [if_neg (by simpa using hemp)]
      rw [flatMap_map]
      rfl
    refine ⟨fun hr => ?_, fun p hp => ?_⟩
    · rw [hout, countP_flatMap]
      rw [List.map_congr_left (g := fun k =>
          if k = hr ∧ (5 ≤ (rowsAtHour hourly k).length ∧
            10 < meanPointsCount (rowsAtHour hourly k)) then (1 : ℕ) else 0) ?_]
      · rw [sum_single_key hr (fun k => 5 ≤ (rowsAtHour hourly k).length ∧
            10 < meanPointsCount (rowsAtHour hourly k)) _ (firstOccurrences_nodup _)]
        by_cases hmem : hr ∈ hourly.map fun h => hourOf h.hour
        · simp [mem_firstOccurrences, hmem]
        · have hnil : rowsAtHour hourly hr = [] := by
            by_contra hne
            exact hmem ((mem_hours_iff hourly hr).mpr hne)
          rw [if_neg, if_neg]
          · rw [hnil]
            simp
          · intro hc
            exact hmem ((mem_firstOccurrences _ _).mp hc.1)
      · intro k _
        by_cases h1 : 5 ≤ (rowsAtHour hourly k).length
        · by_cases h2 : 10 < meanPointsCount (rowsAtHour hourly k)
          · by_cases hk : k = hr
            · subst hk
              simp [h1, h2, List.countP_cons]
            · simp [h1, h2, hk, List.countP_cons]
          · simp [h1, h2]
        · simp [h1]
    · rw [hout] at hp
      rw [List.mem_flatMap] at hp
      obtain ⟨k, hk, hpe⟩ := hp
      by_cases h1 : 5 ≤ (rowsAtHour hourly k).length
      · by_cases h2 : 10 < meanPointsCount (rowsAtHour hourly k)
        · rw [if_pos h1, if_pos h2, List.mem_singleton] at hpe
          subst hpe
          exact ⟨rfl, rfl, rfl, h1, h2⟩
        · rw [if_pos h1, if_neg h2] at hpe
          simp at hpe
      · rw [if_neg h1] at hpe
        simp at hpe

/-- C5 witness: eight rollup rows at hour 8 with 15 points each, over a
30-day window. -/
theorem C5_routine_iff_witness :
    ((analyze_time_patterns
        [⟨8*3600, 15, 0, 0⟩, ⟨8*3600 + 86400, 15, 0, 0⟩, ⟨8*3600 + 2*86400, 15, 0, 0⟩,
         ⟨8*3600 + 3*86400, 15, 0, 0⟩, ⟨8*3600 + 4*86400, 15, 0, 0⟩, ⟨8*3600 + 5*86400, 15, 0, 0⟩,
         ⟨8*3600 + 6*86400, 15, 0, 0⟩, ⟨8*3600 + 7*86400, 15, 0, 0⟩] 0 (30*86400)).countP
      fun p => p.hour = 8) =
      if 5 ≤ (rowsAtHour
          [⟨8*3600, 15, 0, 0⟩, ⟨8*3600 + 86400, 15, 0, 0⟩, ⟨8*3600 + 2*86400, 15, 0, 0⟩,
           ⟨8*3600 + 3*86400, 15, 0, 0⟩, ⟨8*3600 + 4*86400, 15, 0, 0⟩, ⟨8*3600 + 5*86400, 15, 0, 0⟩,
           ⟨8*3600 + 6*86400, 15, 0, 0⟩, ⟨8*3600 + 7*86400, 15, 0, 0⟩] 8).length ∧
          10 < meanPointsCount (rowsAtHour
          [⟨8*3600, 15, 0, 0⟩, ⟨8*3600 + 86400, 15, 0, 0⟩, ⟨8*3600 + 2*86400, 15, 0, 0⟩,
           ⟨8*3600 + 3*86400, 15, 0, 0⟩, ⟨8*3600 + 4*86400, 15, 0, 0⟩, ⟨8*3600 + 5*86400, 15, 0, 0⟩,
           ⟨8*3600 + 6*86400, 15, 0, 0⟩, ⟨8*3600 + 7*86400, 15, 0, 0⟩] 8) then 1 else 0 :=
  (C5_routine_iff _ 0 (30*86400) (by decide)).1 8

/-- C4: every pattern retained by the geo miner carries the arithmetic
mean of its member coordinates as its centre, the maximum squared
distance from the centre times `111000²` as its squared radius (the
source takes the square root first and multiplies by `111000`;
squaring is an order isomorphism on nonnegatives, so carrying the
square loses nothing), `min(0.95, 0.5 + occurrences/100)` as its
confidence, and the member count as `occurrences`. -/
theorem C4_cluster_stats (points : List GeoPoint) (m sts ets : ℕ) :
    ∀ p ∈ analyze_geo_patterns points m sts ets,
      ∃ members, members = clusterMembers points
          (dbscanLabels (points.map fun q => (q.lat, q.lon)) dbscanEps m) p.label ∧
        members ≠ [] ∧
        p.center_lat = (members.map fun g => g.lat).sum / members.length ∧
        p.center_lon = (members.map fun g => g.lon).sum / members.length ∧
        p.radius_meters_sq =
          ((members.map fun g =>
            sqDist (p.center_lat, p.center_lon) (g.lat, g.lon)).foldr max 0) * 111000^2 ∧
        p.confidence = min (19/20) (1/2 + (members.length : ℚ) / 100) ∧
        p.occurrences = members.length := by
  intro p hp
  obtain ⟨ℓ, ⟨k, hk⟩, rfl⟩ := analyze_geo_mem points m sts ets p hp
  obtain ⟨hklt, -⟩ := List.get?_eq_some.mp hk
  rw [dbscanLabels_length, List.length_map] at hklt
  have hpg : points.get? k = some (points.get ⟨k, hklt⟩) := List.get?_eq_get hklt
  have hmem := mem_clusterMembers_of_get? points _ ℓ k _ hpg hk
  exact ⟨_, rfl, List.ne_nil_of_mem hmem, rfl, rfl, rfl, rfl, rfl⟩

/-- C7, amended: every emitted `location_cluster` pattern has at least
one member, and contains a core member: a point with at least
`min_cluster_size` input points (itself included) within the DBSCAN
radius.  The stated bound `occurrences ≥ min_cluster_size` itself fails
for `min_cluster_size = 4` (see `C7_small_cluster_cex`): border points
absorbed by earlier clusters can leave a later cluster with fewer
members than `min_samples`. -/
theorem C7_cluster_core (points : List GeoPoint) (m sts ets : ℕ) :
    ∀ p ∈ analyze_geo_patterns points m sts ets,
      1 ≤ p.occurrences ∧
      ∃ g ∈ clusterMembers points
          (dbscanLabels (points.map fun q => (q.lat, q.lon)) dbscanEps m) p.label,
        m ≤ pointNeighborCount (points.map fun q => (q.lat, q.lon)) (g.lat, g.lon) := by
  intro p hp
  obtain ⟨ℓ, ⟨k, hk⟩, rfl⟩ := analyze_geo_mem points m sts ets p hp
  obtain ⟨kc, hkc, hcore⟩ := dbscanLabels_core _ dbscanEps m ℓ k hk
  obtain ⟨hkclt, -⟩ := List.get?_eq_some.mp hkc
  rw [dbscanLabels_length, List.length_map] at hkclt
  have hpg : points.get? kc = some (points.get ⟨kc, hkclt⟩) := List.get?_eq_get hkclt
  have hmem := mem_clusterMembers_of_get? points _ ℓ kc _ hpg hkc
  constructor
  · rw [mkGeoPattern_occurrences]
    exact List.length_pos.mpr (List.ne_nil_of_mem hmem)
  · refine ⟨points.get ⟨kc, hkclt⟩, hmem, ?_⟩
    have hnlt : kc < (precomputedNeighborhoods (points.map fun q => (q.lat, q.lon))
        dbscanEps).length := by
      rw [length_precomputedNeighborhoods, List.length_map]
      exact hkclt
    rw [isCoreAt_coreFlags _ _ _ hnlt] at hcore
    rw [decide_eq_true_eq] at hcore
    rw [nbhd_precomputed _ _ _ (by rwa [List.length_map])] at hcore
    rw [neighborsIdx_length_eq] at hcore
    rwa [nthCoord_map points kc hkclt] at hcore

/-- C4 witness: the stats of the singleton cluster of three coincident
points. -/
theorem C4_cluster_stats_witness :
    ∃ members, members = clusterMembers triplePoints
        (dbscanLabels (triplePoints.map fun q => (q.lat, q.lon)) dbscanEps 3)
        (mkGeoPattern triplePoints 0 0 0).label ∧
      members ≠ [] ∧
      (mkGeoPattern triplePoints 0 0 0).center_lat =
        (members.map fun g => g.lat).sum / members.length ∧
      (mkGeoPattern triplePoints 0 0 0).center_lon =
        (members.map fun g => g.lon).sum / members.length ∧
      (mkGeoPattern triplePoints 0 0 0).radius_meters_sq =
        ((members.map fun g =>
          sqDist ((mkGeoPattern triplePoints 0 0 0).center_lat,
            (mkGeoPattern triplePoints 0 0 0).center_lon) (g.lat, g.lon)).foldr max 0)
          * 111000^2 ∧
      (mkGeoPattern triplePoints 0 0 0).confidence =
        min (19/20) (1/2 + (members.length : ℚ) / 100) ∧
      (mkGeoPattern triplePoints 0 0 0).occurrences = members.length :=
  C4_cluster_stats triplePoints 3 0 0 (mkGeoPattern triplePoints 0 0 0) triplePoints_mem

/-- C7 witness: in the three-coincident-point cluster every member is
core. -/
theorem C7_cluster_core_witness :
    1 ≤ (mkGeoPattern triplePoints 0 0 0).occurrences ∧
    ∃ g ∈ clusterMembers triplePoints
        (dbscanLabels (triplePoints.map fun q => (q.lat, q.lon)) dbscanEps 3)
        (mkGeoPattern triplePoints 0 0 0).label,
      3 ≤ pointNeighborCount (triplePoints.map fun q => (q.lat, q.lon)) (g.lat, g.lon) :=
  C7_cluster_core triplePoints 3 0 0 (mkGeoPattern triplePoints 0 0 0) triplePoints_mem

/-- C8, amended: the run of the miner is a pure function of the input
sequence, and the core/non-core classification of a position depends
only on the multiset of input points: for inputs that are permutations
of each other a given position has the same neighbour count, and the
algorithm's `is_core` flag at an index is exactly the
`min_samples ≤ neighbour count` test at that index's coordinates.  Full
cluster membership, however, is NOT order-independent (see
`C8_geo_order_cex`): a border point in reach of two clusters joins
whichever is expanded first. -/
theorem C8_core_perm (coords1 coords2 : List (ℚ × ℚ)) (m : ℕ) (hperm : coords1.Perm coords2) :
    (∀ p : ℚ × ℚ, pointNeighborCount coords1 p = pointNeighborCount coords2 p) ∧
    ∀ i, i < coords1.length →
      isCoreAt (coreFlags (precomputedNeighborhoods coords1 dbscanEps) m) i =
        decide (m ≤ pointNeighborCount coords1 (nthCoord coords1 i)) := by
  constructor
  · intro p
    unfold pointNeighborCount
    exact hperm.countP_eq _
  · intro i hi
    rw [isCoreAt_coreFlags _ _ _ (by rwa [length_precomputedNeighborhoods])]
    rw [nbhd_precomputed _ _ _ hi, neighborsIdx_length_eq]

/-- C8 witness: a two-point list and its reversal give every position
the same neighbour count. -/
theorem C8_core_perm_witness :
    pointNeighborCount ([((0:ℚ), (0:ℚ)), (1, 1)].reverse) (0, 0) =
      pointNeighborCount [((0:ℚ), (0:ℚ)), (1, 1)] (0, 0) :=
  (C8_core_perm _ _ 3 (List.reverse_perm _)).1 (0, 0)

/-- C2, counterexample: an oracle reply whose array carries
`"confidence": 2` yields an emitted insight with confidence 2 — the
untrusted value flows through `data.get("confidence", 0.5)` with no
validation or clamping, violating `confidence ∈ [0,1]`. -/
theorem C2_insight_confidence_cex :
    ((generate_ai_insights "user-1" (some [{ confidence := some 2 }]) 1 0).map
      fun i => i.confidence) = [2] ∧
    ∃ i ∈ generate_ai_insights "user-1" (some [{ confidence := some 2 }]) 1 0,
      1 < i.confidence := by
  refine ⟨rfl, ?_⟩
  have hrec :
      ({ user_id := "user-1", insight_type := "habit", title := "", description := "",
         confidence := 2, evidence_count := 1,
         reasoning := "Based on 1 location clusters and 0 time patterns" } : Insight) ∈
      generate_ai_insights "user-1" (some [{ confidence := some 2 }]) 1 0 :=
    List.mem_singleton.mpr rfl
  exact ⟨_, hrec, by norm_num⟩

/-- C2, amended: every Pattern confidence (geo clusters and routines)
and every memory-answer confidence lies in `[0,1]`; an Insight's
confidence equals the oracle-supplied value (default 0.5) and lies in
`[0,1]` only when every oracle-supplied value does (it is not
validated; see `C2_insight_confidence_cex`). -/
theorem C2_confidence_amended :
    (∀ (points : List GeoPoint) (m sts ets : ℕ),
      ∀ p ∈ analyze_geo_patterns points m sts ets,
        0 ≤ p.confidence ∧ p.confidence ≤ 1) ∧
    (∀ (hourly : List HourlyRollup) (sts ets : ℤ),
      ∀ p ∈ analyze_time_patterns hourly sts ets,
        0 ≤ p.confidence ∧ p.confidence ≤ 1) ∧
    (∀ (events : List CHEvent) (answer : String),
      0 ≤ calculate_confidence events answer ∧ calculate_confidence events answer ≤ 1) ∧
    (∀ (uid : String) (ds : List InsightData) (nGeo nTime : ℕ),
      (∀ d ∈ ds, ∀ c, d.confidence = some c → 0 ≤ c ∧ c ≤ 1) →
      ∀ i ∈ generate_ai_insights uid (some ds) nGeo nTime,
        0 ≤ i.confidence ∧ i.confidence ≤ 1) := by
  refine ⟨?_, ?_, ?_, ?_⟩
  · intro points m sts ets p hp
    obtain ⟨ℓ, -, rfl⟩ := analyze_geo_mem points m sts ets p hp
    rw [mkGeoPattern_confidence]
    constructor
    · apply le_min
      · norm_num
      · positivity
    · exact le_trans (min_le_left _ _) (by norm_num)
  · intro hourly sts ets p hp
    obtain ⟨n, hn⟩ := analyze_time_confidence hourly sts ets p hp
    rw [hn]
    constructor
    · apply le_min
      · norm_num
      · positivity
    · exact le_trans (min_le_left _ _) (by norm_num)
  · intro events answer
    unfold calculate_confidence
    split
    · norm_num
    · constructor
      · exact le_trans (by norm_num) (le_max_left _ _)
      · apply max_le
        · norm_num
        · exact le_trans (min_le_left _ _) (by norm_num)
  · intro uid ds nGeo nTime hds i hi
    unfold generate_ai_insights at hi
    rw [List.mem_map] at hi
    obtain ⟨d, hd, rfl⟩ := hi
    dsimp only
    cases hc : d.confidence with
    | none =>
      norm_num [Option.getD_none]
    | some c =>
      simpa [Option.getD_some] using hds d hd c hc

/-- C2 witness: an in-range oracle value (0.8) yields an in-range
insight confidence. -/
theorem C2_confidence_amended_witness :
    0 ≤ ({ user_id := "u", insight_type := "habit", title := "", description := "",
           confidence := (4/5 : ℚ), evidence_count := 1,
           reasoning := "Based on 1 location clusters and 0 time patterns" } :
        Insight).confidence ∧
    ({ user_id := "u", insight_type := "habit", title := "", description := "",
       confidence := (4/5 : ℚ), evidence_count := 1,
       reasoning := "Based on 1 location clusters and 0 time patterns" } :
        Insight).confidence ≤ 1 :=
  C2_confidence_amended.2.2.2 "u" [{ confidence := some (4/5) }] 1 0
    (by
      intro d hd c hc
      rw [List.mem_singleton] at hd
      subst hd
      have hc' : (4/5 : ℚ) = c := by
        have := hc
        simpa using this
      rw [← hc']
      norm_num)
    _ (List.mem_singleton.mpr rfl)

/-- C1: the batch ingest endpoint does not validate events individually
and does not skip invalid events.  On the batch `c1Batch` — a valid geo
event, a geo event missing the required `lat`, a valid purchase event —
pydantic validation of the `EventBatch` body fails on the middle event,
the whole request is rejected with HTTP 422, the two valid events are
not stored and no per-index error is reported.  The claimed behaviour
(a 200 response with `stored_count = 2` and
`errors = ["Event 1: ..."]`, satisfying
`stored_count + len(errors) == len(input_events)`) does not occur: as
the last conjunct shows, a batch the handler actually processes always
answers with `errors = []` and `events_stored = len(events)`, because
the per-event `try/except` guards only `list.append`, which never
raises. -/
theorem C1_invalid_event_aborts_batch :
    (parseLifeEvent c1GoodGeo = some (.geo (5575/100) (3761/100))) ∧
    (parseLifeEvent c1GoodPurchase = some (.purchase "Latte" 300)) ∧
    parseLifeEvent c1BadGeo = none ∧
    ingest_events c1Batch = .clientError 422 ∧
    ingest_events [c1GoodGeo, c1GoodPurchase] = .response 2 2 [] := by
  refine ⟨?_, ?_, ?_, ?_, ?_⟩ <;>
    norm_num [parseLifeEvent, tryGeo, tryPurchase, trySocial, tryHealth, tryActivity,
      tryCustom, parseBatch, ingest_events, insert_events, eventTypeValues, optWithin,
      c1Batch, c1GoodGeo, c1BadGeo, c1GoodPurchase, Option.or]

/-- C9, counterexample: re-running the miner on the same data for the
same user accumulates duplicate patterns.  On `triplePoints`, one run
saves one active `location_cluster` row; a second identical run leaves
that row untouched and still active and appends an identical second
active row — nothing is superseded, marked inactive or replaced. -/
theorem C9_rerun_accumulates_cex :
    run_analysis_saves "u" [] (analyze_geo_patterns triplePoints 3 0 0) =
      [geoPatternRow "u" (mkGeoPattern triplePoints 0 0 0)] ∧
    run_analysis_saves "u"
        (run_analysis_saves "u" [] (analyze_geo_patterns triplePoints 3 0 0))
        (analyze_geo_patterns triplePoints 3 0 0) =
      [geoPatternRow "u" (mkGeoPattern triplePoints 0 0 0),
       geoPatternRow "u" (mkGeoPattern triplePoints 0 0 0)] ∧
    (geoPatternRow "u" (mkGeoPattern triplePoints 0 0 0)).is_active = true := by
  refine ⟨?_, ?_, rfl⟩ <;> (rw [triplePoints_out]; rfl)

/-- C9, amended: the save step of a pattern-mining run is append-only.
A rerun never supersedes, marks inactive or replaces prior rows: the
table after the run is exactly the old table followed by one fresh row
per pattern found, every row ever saved by the miner is active, and the
number of active stored rows grows by the number of patterns found on
every run — so the set of active stored patterns grows without bound
across repeated identical runs. -/
theorem C9_rerun_appends (table : List PatternRow) (uid : String) (pats : List GeoPattern) :
    run_analysis_saves uid table pats = table ++ pats.map (geoPatternRow uid) ∧
    (∀ p, (geoPatternRow uid p).is_active = true) ∧
    (run_analysis_saves uid table pats).countP (fun r => r.is_active) =
      (table.countP fun r => r.is_active) + pats.length := by
  have key : ∀ (l : List GeoPattern) (t : List PatternRow),
      run_analysis_saves uid t l = t ++ l.map (geoPatternRow uid) := by
    intro l
    induction l with
    | nil => intro t; simp [run_analysis_saves]
    | cons p rest ih =>
        intro t
        rw [run_analysis_saves, ih, List.map_cons]
        simp [save_pattern]
  refine ⟨key pats table, fun _ => rfl, ?_⟩
  rw [key pats table, List.countP_append]
  have hall : (pats.map (geoPatternRow uid)).countP (fun r => r.is_active) =
      (pats.map (geoPatternRow uid)).length := by
    rw [List.countP_eq_length]
    intro r hr
    rcases List.mem_map.mp hr with ⟨p, _, rfl⟩
    rfl
  rw [hall, List.length_map]

end LifeStreamClaims
